import Mathlib

/-! PagerDuty provider package (`pkg/providers/pd`): caches, registry and reconcilers.

A shallow embedding of the Go package `pd`.

* The remote provider (the `go-pagerduty` client) and the scheduler are outside the
  package.  They are an arbitrary `Client`: every answer may depend on the whole history
  of interactions made so far (`List Event`), so the provider may change its answers
  after every call.  Each interaction of the package with the outside appends one
  `Event` to the history, which is how "no provider call was made" is stated.
* Go `error` values are `Option PdError` (`none` is `nil`); a `(T, error)` result is
  `Except PdError T`.
* A mutex acquisition that waits without bound is taken to succeed; the timed wait of
  `Refresh` (a race against `time.After(5 * time.Second)`) is answered by the `Client`.
* The `for` loop of `GetPagerDutyServiceByNameDirect` need not terminate, so it takes
  fuel and returns an `Option`.
-/

namespace Pd

/-! ## Provider data -/

/-- The `pagerduty.EscalationPolicy` of a service: the embedded `APIObject`. -/
structure EscalationPolicy where
  ID : String
  Type_ : String
deriving DecidableEq, Repr

/-- The fields of `pagerduty.Service` the package reads or writes. -/
structure PdService where
  ID : String
  Name : String
  Description : String
  EscalationPolicy : EscalationPolicy
deriving DecidableEq, Repr

/-- The zero value `pagerduty.Service{}`. -/
def PdService.zero : PdService := ⟨"", "", "", ⟨"", ""⟩⟩

/-- The `pagerduty.BusinessServiceTeam` of a business service. -/
structure BusinessServiceTeam where
  ID : String
deriving DecidableEq, Repr

/-- The fields of `pagerduty.BusinessService` the package reads or writes. -/
structure PdBusinessService where
  ID : String
  Name : String
  Description : String
  PointOfContact : String
  Team : Option BusinessServiceTeam
deriving DecidableEq, Repr

/-- The fields of `pagerduty.ListServiceOptions` the package sets (`uint` values). -/
structure ListServiceOptions where
  Limit : Nat
  Offset : Nat
deriving DecidableEq, Repr

/-! ## Errors (`cacheErrors.go`, `fmt.Errorf`) -/

/-- Go `error` values met in the package. -/
inductive PdError where
  /-- The value `&CacheNotRegistered{CacheName}`. -/
  | cacheNotRegistered (CacheName : String)
  /-- The value `&CacheEmpty{CacheName}`. -/
  | cacheEmpty (CacheName : String)
  /-- An error that only carries a text: `fmt.Errorf` without `%w`, or a provider error. -/
  | text (msg : String)
  /-- The value of `fmt.Errorf("<context>: %w", cause)`. -/
  | wrapped (context : String) (cause : PdError)
deriving DecidableEq, Repr

/-- The `Error()` method. -/
def PdError.Error : PdError → String
  | .cacheNotRegistered n => n ++ " cache is not registered"
  | .cacheEmpty n => n ++ " cache is empty"
  | .text m => m
  | .wrapped c e => c ++ ": " ++ e.Error

/-- The function `strings.Contains` on the characters of its arguments. -/
def stringsContains (s substr : String) : Bool :=
  s.toList.tails.any (fun t => substr.toList.isPrefixOf t)

/-! ## The outside world -/

/-- One interaction of the package with the outside. -/
inductive Event where
  /-- The timed wait for the mutex of the named cache in `Refresh`. -/
  | lockWait (cache : String)
  | ListServicesPaginated (o : ListServiceOptions)
  | ListBusinessServicesPaginated
  | UpdateService (s : PdService)
  | UpdateBusinessService (b : PdBusinessService)
  | DeleteService (id : String)
  | DeleteBusinessService (id : String)
deriving DecidableEq, Repr

/-- The provider client and the scheduler.  Every answer is a function of the history of
interactions before the call. -/
structure Client where
  /-- Whether the mutex of the named cache is obtained within the five seconds. -/
  lockWithinTimeout : List Event → String → Bool
  ListServicesPaginated : List Event → ListServiceOptions → Except PdError (List PdService)
  ListBusinessServicesPaginated : List Event → Except PdError (List PdBusinessService)
  UpdateServiceWithContext : List Event → PdService → Except PdError PdService
  UpdateBusinessServiceWithContext :
    List Event → PdBusinessService → Except PdError PdBusinessService
  DeleteServiceWithContext : List Event → String → Option PdError
  DeleteBusinessServiceWithContext : List Event → String → Option PdError

/-- Whether an event is a provider update call. -/
def Event.isUpdate : Event → Bool
  | .UpdateService _ => true
  | .UpdateBusinessService _ => true
  | _ => false

/-! ## Caches (`cacheServices.go`, `cacheBusinessService.go`) -/

/-- The state of a `ServiceCache`: the slice `cache`. -/
structure ServiceCache where
  cache : List PdService
deriving DecidableEq, Repr

/-- The state of a `BusinessServiceCache`: the slice `cache` (its pointers are non-nil). -/
structure BusinessServiceCache where
  cache : List PdBusinessService
deriving DecidableEq, Repr

/-- The method `(*ServiceCache).Refresh`: returned error, cache afterwards, history afterwards. -/
def ServiceCache.Refresh (cl : Client) (sc : ServiceCache) (tr : List Event) :
    Option PdError × ServiceCache × List Event :=
  let tr1 := tr ++ [Event.lockWait "ServiceCache"]
  if cl.lockWithinTimeout tr "ServiceCache" then
    let tr2 := tr1 ++ [Event.ListServicesPaginated ⟨0, 0⟩]
    match cl.ListServicesPaginated tr1 ⟨0, 0⟩ with
    | .error err =>
      (some (.wrapped "failed to refresh PagerDuty service cache" err), sc, tr2)
    | .ok services => (none, ⟨services⟩, tr2)
  else
    (some (.text "failed to acquire mutex for service cache refresh"), sc, tr1)

/-- The method `(*BusinessServiceCache).Refresh`. -/
def BusinessServiceCache.Refresh (cl : Client) (bsc : BusinessServiceCache)
    (tr : List Event) : Option PdError × BusinessServiceCache × List Event :=
  let tr1 := tr ++ [Event.lockWait "BusinessServiceCache"]
  if cl.lockWithinTimeout tr "BusinessServiceCache" then
    let tr2 := tr1 ++ [Event.ListBusinessServicesPaginated]
    match cl.ListBusinessServicesPaginated tr1 with
    | .error err =>
      (some (.wrapped "failed to refresh PagerDuty business service cache" err), bsc, tr2)
    | .ok businessServices => (none, ⟨businessServices⟩, tr2)
  else
    (some (.text "failed to acquire mutex for business service cache refresh"), bsc, tr1)

/-! ## The registry (`pagerduty.go`, `caches.go`) -/

/-- The interface `CacheRefresher` with its two implementations in the package. -/
inductive CacheRefresher where
  | service (sc : ServiceCache)
  | businessService (bsc : BusinessServiceCache)
deriving DecidableEq, Repr

/-- The method `Refresh` of the interface: dispatch on the dynamic type. -/
def CacheRefresher.Refresh (cl : Client) (c : CacheRefresher) (tr : List Event) :
    Option PdError × CacheRefresher × List Event :=
  match c with
  | .service sc =>
    let r := sc.Refresh cl tr
    (r.1, .service r.2.1, r.2.2)
  | .businessService bsc =>
    let r := bsc.Refresh cl tr
    (r.1, .businessService r.2.1, r.2.2)

/-- A `time.Duration` product, an `int64` count of nanoseconds. -/
def wrapInt64 (x : Int) : Int := (x + 2 ^ 63) % 2 ^ 64 - 2 ^ 63

/-- The struct `Pagerduty`; its two Go maps are association lists read with `List.lookup`.
The `client` is the `Client` passed to every operation. -/
structure Pagerduty where
  apiKey : String
  caches : List (String × CacheRefresher)
  refreshInterval : List (String × Int)
deriving DecidableEq, Repr

/-- Map assignment `m[k] = v` on an association list. -/
def mapSet {β : Type} (m : List (String × β)) (k : String) (v : β) : List (String × β) :=
  (k, v) :: m.filter (fun e => e.1 != k)

/-- The method `RegisterCache`. -/
def Pagerduty.RegisterCache (pd : Pagerduty) (name : String) (cache : CacheRefresher)
    (interval : Int) : Pagerduty :=
  { pd with caches := mapSet pd.caches name cache,
            refreshInterval := mapSet pd.refreshInterval name interval }

/-- The effect of a `Refresh` through the pointer held in the registry: the cache object
registered under `name` takes its new state. -/
def Pagerduty.storeCache (pd : Pagerduty) (name : String) (c : CacheRefresher) : Pagerduty :=
  { pd with caches := pd.caches.map (fun e => if e.1 == name then (e.1, c) else e) }

/-- The method `GetServiceCache`; the match on `.service` is the type assertion
`pd.caches["ServiceCache"].(*ServiceCache)`. -/
def Pagerduty.GetServiceCache (pd : Pagerduty) : Except PdError ServiceCache :=
  match pd.caches.lookup "ServiceCache" with
  | some (.service serviceCache) =>
    if serviceCache.cache.length = 0 then .error (.cacheEmpty "ServiceCache")
    else .ok serviceCache
  | _ => .error (.cacheNotRegistered "ServiceCache")

/-- The method `GetBusinessServiceCache`. -/
def Pagerduty.GetBusinessServiceCache (pd : Pagerduty) : Except PdError BusinessServiceCache :=
  match pd.caches.lookup "BusinessServiceCache" with
  | some (.businessService businessServiceCache) =>
    if businessServiceCache.cache.length = 0 then .error (.cacheEmpty "BusinessServiceCache")
    else .ok businessServiceCache
  | _ => .error (.cacheNotRegistered "BusinessServiceCache")

/-- The method `ForceRefreshServiceCache`. -/
def Pagerduty.ForceRefreshServiceCache (cl : Client) (pd : Pagerduty) (tr : List Event) :
    Option PdError × Pagerduty × List Event :=
  match pd.GetServiceCache with
  | .error err => (some (.wrapped "failed to get service cache" err), pd, tr)
  | .ok serviceCache =>
    let r := serviceCache.Refresh cl tr
    let pd1 := pd.storeCache "ServiceCache" (.service r.2.1)
    match r.1 with
    | some err => (some (.wrapped "failed to refresh service cache" err), pd1, r.2.2)
    | none => (none, pd1, r.2.2)

/-- The method `ForceRefreshBusinessServiceCache`. -/
def Pagerduty.ForceRefreshBusinessServiceCache (cl : Client) (pd : Pagerduty)
    (tr : List Event) : Option PdError × Pagerduty × List Event :=
  match pd.GetBusinessServiceCache with
  | .error err => (some (.wrapped "failed to get business service cache" err), pd, tr)
  | .ok businessServiceCache =>
    let r := businessServiceCache.Refresh cl tr
    let pd1 := pd.storeCache "BusinessServiceCache" (.businessService r.2.1)
    match r.1 with
    | some err => (some (.wrapped "failed to refresh business service cache" err), pd1, r.2.2)
    | none => (none, pd1, r.2.2)

/-- The method `GetBusinessServiceByName` of `cacheBusinessService.go`: the lookup in the
cache alone. -/
def Pagerduty.GetBusinessServiceByName (pd : Pagerduty) (name : String) :
    String × Bool × Option PdError :=
  match pd.GetBusinessServiceCache with
  | .error err => ("", false, some (.wrapped "failed to get business service cache" err))
  | .ok businessServiceCache =>
    match businessServiceCache.cache.find? (fun bs => bs.Name = name) with
    | some bs => (bs.ID, true, none)
    | none => ("", false, none)

/-- The goroutines of `initialCacheRefresh`.  The caches are taken in the order given: the
order in which the scheduler lets the goroutines run their `cache.Refresh()` and complete,
which neither the iteration of the Go map nor the scheduling fixes.  Each `Refresh` is one
step.  For each cache, in that order, its name and the `err` of its `Refresh`; then the
caches and the history afterwards. -/
def firstRefreshes (cl : Client) :
    List (String × CacheRefresher) → List Event →
      List (String × Option PdError) × List (String × CacheRefresher) × List Event
  | [], tr => ([], [], tr)
  | (name, cache) :: rest, tr =>
    let r := cache.Refresh cl tr
    let rs := firstRefreshes cl rest r.2.2
    ((name, r.1) :: rs.1, (name, r.2.1) :: rs.2.1, rs.2.2)

/-- What the goroutines send on `errCh`, collected into the slice `errors`. -/
def collectErrors (results : List (String × Option PdError)) : List PdError :=
  results.filterMap
    (fun r => r.2.map (fun err => PdError.wrapped ("failed to refresh " ++ r.1 ++ " cache") err))

/-- The text of a `[]error` under the verb `%v`. -/
def formatErrors (errors : List PdError) : String :=
  "[" ++ " ".intercalate (errors.map PdError.Error) ++ "]"

/-- The method `initialCacheRefresh`.  `order` is a permutation of `pd.caches`: the order
in which the goroutines of the registered caches complete, so that `errCh` holds the errors
in that order. -/
def Pagerduty.initialCacheRefresh (cl : Client) (pd : Pagerduty)
    (order : List (String × CacheRefresher)) (tr : List Event) :
    Option PdError × Pagerduty × List Event :=
  let rs := firstRefreshes cl order tr
  let errors := collectErrors rs.1
  let pd1 := { pd with caches := rs.2.1 }
  if errors.length > 0 then
    (some (.text ("initial cache refresh failed: " ++ formatErrors errors)), pd1, rs.2.2)
  else
    (none, pd1, rs.2.2)

/-- The registry of `NewPagerduty` after its two calls of `RegisterCache`. -/
def newRegistry (authToken : String) (refreshInterval : Int) : Pagerduty :=
  let pd : Pagerduty := ⟨authToken, [], []⟩
  let serviceCache : ServiceCache := ⟨[]⟩
  let businessServiceCache : BusinessServiceCache := ⟨[]⟩
  let pd := pd.RegisterCache "ServiceCache" (.service serviceCache)
    (wrapInt64 (wrapInt64 refreshInterval * 1000000000))
  pd.RegisterCache "BusinessServiceCache" (.businessService businessServiceCache)
    (wrapInt64 (wrapInt64 refreshInterval * 1000000000))

/-- The function `NewPagerduty`, up to the start of the background refresh.  `order` is the
order in which the goroutines of the initial refresh complete, a permutation of the two
registered caches. -/
def NewPagerduty (cl : Client) (authToken : String) (refreshInterval : Int)
    (order : List (String × CacheRefresher)) (tr : List Event) :
    Except PdError Pagerduty × List Event :=
  if authToken = "" then
    (.error (.text "PAGERDUTY_TOKEN environment variable not set"), tr)
  else
    let pd := newRegistry authToken refreshInterval
    let r := pd.initialCacheRefresh cl order tr
    match r.1 with
    | some err =>
      (.error (.wrapped "failed to perform initial cache refresh" err), r.2.2)
    | none => (.ok r.2.1, r.2.2)

/-! ## Service reconciler (`services.go`) -/

/-- The struct `Service`: the desired state of a service. -/
structure Service where
  Name : String
  Description : String
  Status : String
  EscalationPolicyID : String
  AutoResolveTimeout : Int
  AcknowedgeTimeout : Int
deriving DecidableEq, Repr

/-- The method `ToPagerDutyService`. -/
def Service.ToPagerDutyService (s : Service) : PdService :=
  { ID := "", Name := s.Name, Description := s.Description,
    EscalationPolicy := ⟨s.EscalationPolicyID, "escalation_policy_reference"⟩ }

/-- The function `needsUpdate`. -/
def needsUpdate (existing : PdService) (new : Service) : Bool :=
  if existing.Name ≠ new.Name then true
  else if existing.Description ≠ new.Description then true
  else if existing.EscalationPolicy.ID ≠ new.EscalationPolicyID then true
  else false

/-- The first `for` loop of `GetPagerDutyServiceByNameDirect`, with fuel: from `offset`
(a `uint`, 64 bits) and the services gathered so far, either the error of a page request
or all gathered services, and the history afterwards; `none` when the fuel runs out. -/
def fetchAllServices (cl : Client) :
    Nat → Nat → List PdService → List Event →
      Option (Except PdError (List PdService) × List Event)
  | 0, _, _, _ => none
  | fuel + 1, offset, allServices, tr =>
    let tr1 := tr ++ [Event.ListServicesPaginated ⟨100, offset⟩]
    match cl.ListServicesPaginated tr ⟨100, offset⟩ with
    | .error err => some (.error err, tr1)
    | .ok services =>
      let allServices := allServices ++ services
      if services.length < 100 then some (.ok allServices, tr1)
      else fetchAllServices cl fuel ((offset + 100) % 2 ^ 64) allServices tr1

/-- The method `GetPagerDutyServiceByNameDirect`: the triple it returns and the history
afterwards. -/
def GetPagerDutyServiceByNameDirect (cl : Client) (fuel : Nat) (name : String)
    (tr : List Event) : Option ((PdService × Bool × Option PdError) × List Event) :=
  match fetchAllServices cl fuel 0 [] tr with
  | none => none
  | some (.error err, tr1) => some ((PdService.zero, false, some err), tr1)
  | some (.ok allServices, tr1) =>
    match allServices.find? (fun svc => svc.Name = name) with
    | some svc => some ((svc, true, none), tr1)
    | none => some ((PdService.zero, false, none), tr1)

/-- The method `GetPagerDutyServiceByName`. -/
def GetPagerDutyServiceByName (cl : Client) (fuel : Nat) (pd : Pagerduty) (name : String)
    (useCache : Bool) (tr : List Event) :
    Option ((PdService × Bool × Option PdError) × List Event) :=
  if useCache then
    match pd.GetServiceCache with
    | .error _ => GetPagerDutyServiceByNameDirect cl fuel name tr
    | .ok serviceCache =>
      match serviceCache.cache.find? (fun svc => svc.Name = name) with
      | some svc => some ((svc, true, none), tr)
      | none => GetPagerDutyServiceByNameDirect cl fuel name tr
  else GetPagerDutyServiceByNameDirect cl fuel name tr

/-- The method `UpdatePagerDutyService`: returned error, registry and history afterwards. -/
def UpdatePagerDutyService (cl : Client) (fuel : Nat) (pd : Pagerduty) (service : Service)
    (tr : List Event) : Option (Option PdError × Pagerduty × List Event) :=
  match GetPagerDutyServiceByName cl fuel pd service.Name true tr with
  | none => none
  | some ((_, _, some err), tr1) => some (some err, pd, tr1)
  | some ((existingService, _, none), tr1) =>
    if !needsUpdate existingService service then some (none, pd, tr1)
    else
      let serviceInput := { service.ToPagerDutyService with ID := existingService.ID }
      let tr2 := tr1 ++ [Event.UpdateService serviceInput]
      match cl.UpdateServiceWithContext tr1 serviceInput with
      | .error err => some (some (.wrapped "failed to update service" err), pd, tr2)
      | .ok _ =>
        let r := pd.ForceRefreshServiceCache cl tr2
        some (none, r.2.1, r.2.2)

/-- The method `DeletePagerDutyService`. -/
def DeletePagerDutyService (cl : Client) (pd : Pagerduty) (id : String) (tr : List Event) :
    Option PdError × Pagerduty × List Event :=
  let tr1 := tr ++ [Event.DeleteService id]
  match cl.DeleteServiceWithContext tr id with
  | some err =>
    if stringsContains err.Error "404" then (none, pd, tr1)
    else (some (.wrapped "failed to delete service" err), pd, tr1)
  | none =>
    let r := pd.ForceRefreshServiceCache cl tr1
    (none, r.2.1, r.2.2)

/-! ## Business service reconciler (`businessService.go`) -/

/-- The struct `BusinessService`: the desired state of a business service. -/
structure BusinessService where
  Name : String
  Description : String
  PointOfContact : String
  TeamId : String
deriving DecidableEq, Repr

/-- The method `ToPagerDutyBusinessService`. -/
def BusinessService.ToPagerDutyBusinessService (b : BusinessService) : PdBusinessService :=
  { ID := "", Name := b.Name, Description := b.Description,
    PointOfContact := b.PointOfContact, Team := some ⟨b.TeamId⟩ }

/-- The method `GetBusinessServicebyName`: the triple it returns and the history
afterwards. -/
def GetBusinessServicebyName (cl : Client) (pd : Pagerduty) (name : String)
    (useCache : Bool) (tr : List Event) : (String × Bool × Option PdError) × List Event :=
  let direct : (String × Bool × Option PdError) × List Event :=
    let tr1 := tr ++ [Event.ListBusinessServicesPaginated]
    match cl.ListBusinessServicesPaginated tr with
    | .error err => (("", false, some err), tr1)
    | .ok bservices =>
      match bservices.find? (fun s => s.Name = name) with
      | some s => ((s.ID, true, none), tr1)
      | none => (("", false, some (.text "businessService not found")), tr1)
  if useCache then
    match pd.GetBusinessServiceCache with
    | .error _ => direct
    | .ok businessServiceCache =>
      match businessServiceCache.cache.find? (fun bs => bs.Name = name) with
      | some bs => ((bs.ID, true, none), tr)
      | none => direct
  else direct

/-- The method `UpdateBusinessService`: returned error and history afterwards. -/
def UpdateBusinessService (cl : Client) (pd : Pagerduty) (businessService : BusinessService)
    (tr : List Event) : Option PdError × List Event :=
  match GetBusinessServicebyName cl pd businessService.Name true tr with
  | ((_, _, some err), tr1) => (some err, tr1)
  | ((id, _, none), tr1) =>
    let input := { businessService.ToPagerDutyBusinessService with ID := id }
    let tr2 := tr1 ++ [Event.UpdateBusinessService input]
    match cl.UpdateBusinessServiceWithContext tr1 input with
    | .error err => (some err, tr2)
    | .ok _ => (none, tr2)

/-- The method `DeleteBusinessService`. -/
def DeleteBusinessService (cl : Client) (id : String) (tr : List Event) :
    Option PdError × List Event :=
  let tr1 := tr ++ [Event.DeleteBusinessService id]
  match cl.DeleteBusinessServiceWithContext tr id with
  | some err => (some err, tr1)
  | none => (none, tr1)

/-! ## Page requests -/

/-- The first `n` page requests of the direct lookup: limit 100 at offsets 0, 100, 200, ... -/
def pageRequests (n : Nat) : List Event :=
  (List.range n).map (fun k => Event.ListServicesPaginated ⟨100, 100 * k⟩)

/-- The number of provider update calls in a history. -/
def updateCalls (tr : List Event) : Nat := (tr.filter Event.isUpdate).length

/-! ## Sample environments -/

/-- A provider that lists the given services and business services whatever the request,
accepts every update and delete, and a scheduler that grants every mutex in time. -/
def staticClient (services : List PdService) (bservices : List PdBusinessService) : Client where
  lockWithinTimeout := fun _ _ => true
  ListServicesPaginated := fun _ _ => .ok services
  ListBusinessServicesPaginated := fun _ => .ok bservices
  UpdateServiceWithContext := fun _ s => .ok s
  UpdateBusinessServiceWithContext := fun _ b => .ok b
  DeleteServiceWithContext := fun _ _ => none
  DeleteBusinessServiceWithContext := fun _ _ => none

/-- A provider and scheduler that refuse everything: no mutex in time, every call fails
with the given error. -/
def failingClient (err : PdError) : Client where
  lockWithinTimeout := fun _ _ => false
  ListServicesPaginated := fun _ _ => .error err
  ListBusinessServicesPaginated := fun _ => .error err
  UpdateServiceWithContext := fun _ _ => .error err
  UpdateBusinessServiceWithContext := fun _ _ => .error err
  DeleteServiceWithContext := fun _ _ => some err
  DeleteBusinessServiceWithContext := fun _ _ => some err

/-- A provider whose service listing fails with the given error while everything else
succeeds, and a scheduler that grants every mutex in time. -/
def servicesDownClient (err : PdError) (bservices : List PdBusinessService) : Client where
  lockWithinTimeout := fun _ _ => true
  ListServicesPaginated := fun _ _ => .error err
  ListBusinessServicesPaginated := fun _ => .ok bservices
  UpdateServiceWithContext := fun _ s => .ok s
  UpdateBusinessServiceWithContext := fun _ b => .ok b
  DeleteServiceWithContext := fun _ _ => none
  DeleteBusinessServiceWithContext := fun _ _ => none

/-- A provider that serves the given services in pages: a request with a limit and an
offset is answered with at most `Limit` services from position `Offset` on. -/
def pagedClient (all : List PdService) : Client where
  lockWithinTimeout := fun _ _ => true
  ListServicesPaginated := fun _ o => .ok ((all.drop o.Offset).take o.Limit)
  ListBusinessServicesPaginated := fun _ => .ok []
  UpdateServiceWithContext := fun _ s => .ok s
  UpdateBusinessServiceWithContext := fun _ b => .ok b
  DeleteServiceWithContext := fun _ _ => none
  DeleteBusinessServiceWithContext := fun _ _ => none

/-- A provider whose page at offset 0 is full and whose request at offset 100 fails. -/
def secondPageDownClient (page : List PdService) (err : PdError) : Client where
  lockWithinTimeout := fun _ _ => true
  ListServicesPaginated := fun _ o => if o.Offset = 0 then .ok page else .error err
  ListBusinessServicesPaginated := fun _ => .ok []
  UpdateServiceWithContext := fun _ s => .ok s
  UpdateBusinessServiceWithContext := fun _ b => .ok b
  DeleteServiceWithContext := fun _ _ => none
  DeleteBusinessServiceWithContext := fun _ _ => none

/-- The number of the first page whose offset `100 * k` is not below `2 ^ 64`. -/
def wrapPage : Nat := 184467440737095517

/-- A provider that answers every request with a page of 100 services, except the request
made after `wrapPage` earlier ones, which it answers with an empty page. -/
def wrapClient : Client where
  lockWithinTimeout := fun _ _ => true
  ListServicesPaginated := fun h _ =>
    if h.length = wrapPage then .ok [] else .ok (List.replicate 100 ⟨"P1", "svc-1", "first", ⟨"E1", "escalation_policy_reference"⟩⟩)
  ListBusinessServicesPaginated := fun _ => .ok []
  UpdateServiceWithContext := fun _ s => .ok s
  UpdateBusinessServiceWithContext := fun _ b => .ok b
  DeleteServiceWithContext := fun _ _ => none
  DeleteBusinessServiceWithContext := fun _ _ => none

/-- A second sample service record. -/
def svcB : PdService := ⟨"P2", "svc-2", "second", ⟨"E1", "escalation_policy_reference"⟩⟩

/-- A provider that lists the given services and business services whatever the request
and answers every update and delete with the given error. -/
def rejectingClient (services : List PdService) (bservices : List PdBusinessService)
    (err : PdError) : Client where
  lockWithinTimeout := fun _ _ => true
  ListServicesPaginated := fun _ _ => .ok services
  ListBusinessServicesPaginated := fun _ => .ok bservices
  UpdateServiceWithContext := fun _ _ => .error err
  UpdateBusinessServiceWithContext := fun _ _ => .error err
  DeleteServiceWithContext := fun _ _ => some err
  DeleteBusinessServiceWithContext := fun _ _ => some err

/-- The text of a provider's answer to a call on a missing resource. -/
def notFoundError : PdError :=
  .text "HTTP response failed with status code 404, message: Not Found (code: 2100)"

/-- A desired service whose name no record has. -/
def ghostService : Service := ⟨"ghost", "gone", "active", "E1", 0, 0⟩

/-- A desired business service whose name no record has. -/
def ghostBusinessService : BusinessService := ⟨"ghost", "gone", "ops", "T1"⟩

/-- The desired service that equals `svcA` in name, description and escalation policy. -/
def desiredA : Service := ⟨"svc-1", "first", "active", "E1", 0, 0⟩

/-- The desired business service that equals `bsA` in every field. -/
def desiredBsA : BusinessService := ⟨"bs-1", "first", "ops", "T1"⟩

/-- A sample service record. -/
def svcA : PdService := ⟨"P1", "svc-1", "first", ⟨"E1", "escalation_policy_reference"⟩⟩

/-- A sample business service record. -/
def bsA : PdBusinessService := ⟨"B1", "bs-1", "first", "ops", some ⟨"T1"⟩⟩

/-- A registry in which nothing was registered. -/
def emptyRegistry : Pagerduty := ⟨"token", [], []⟩

/-- The registry as `NewPagerduty` builds it, before the first refresh: both caches
registered and empty. -/
def freshRegistry : Pagerduty :=
  (emptyRegistry.RegisterCache "ServiceCache" (.service ⟨[]⟩) 60000000000).RegisterCache
    "BusinessServiceCache" (.businessService ⟨[]⟩) 60000000000

/-- A registry whose two caches hold one record each. -/
def loadedRegistry : Pagerduty :=
  (emptyRegistry.RegisterCache "ServiceCache" (.service ⟨[svcA]⟩) 60000000000).RegisterCache
    "BusinessServiceCache" (.businessService ⟨[bsA]⟩) 60000000000

/-- The two caches of `NewPagerduty`, the service cache first. -/
def serviceFirst : List (String × CacheRefresher) :=
  [("ServiceCache", .service ⟨[]⟩), ("BusinessServiceCache", .businessService ⟨[]⟩)]

/-- The two caches of `NewPagerduty`, the business service cache first. -/
def businessFirst : List (String × CacheRefresher) :=
  [("BusinessServiceCache", .businessService ⟨[]⟩), ("ServiceCache", .service ⟨[]⟩)]

/-! ## Theorems -/

/-- C1: for both caches, every prior contents and every listing: when the mutex is obtained
and the provider listing succeeds, `Refresh` returns no error and the cache afterwards holds
exactly the fetched listing, in the same order, with nothing of the prior contents. -/
theorem refresh_success_replaces (cl : Client) (tr : List Event) :
    (∀ (sc : ServiceCache) (services : List PdService),
      cl.lockWithinTimeout tr "ServiceCache" = true →
      cl.ListServicesPaginated (tr ++ [Event.lockWait "ServiceCache"]) ⟨0, 0⟩
        = .ok services →
      (sc.Refresh cl tr).1 = none ∧ (sc.Refresh cl tr).2.1.cache = services) ∧
    (∀ (bsc : BusinessServiceCache) (businessServices : List PdBusinessService),
      cl.lockWithinTimeout tr "BusinessServiceCache" = true →
      cl.ListBusinessServicesPaginated (tr ++ [Event.lockWait "BusinessServiceCache"])
        = .ok businessServices →
      (bsc.Refresh cl tr).1 = none ∧ (bsc.Refresh cl tr).2.1.cache = businessServices) := by
  refine ⟨?_, ?_⟩
  · intro sc services hl hs
    simp [ServiceCache.Refresh, hl, hs]
  · intro bsc businessServices hl hs
    simp [BusinessServiceCache.Refresh, hl, hs]

/-- Witness of C1: both caches, holding stale contents, refreshed against a provider that
lists one record each. -/
theorem refresh_success_replaces_witness :
    ((ServiceCache.mk [svcA, svcA]).Refresh (staticClient [svcA] [bsA]) []).1 = none ∧
    ((ServiceCache.mk [svcA, svcA]).Refresh (staticClient [svcA] [bsA]) []).2.1.cache = [svcA] ∧
    ((BusinessServiceCache.mk []).Refresh (staticClient [svcA] [bsA]) []).1 = none ∧
    ((BusinessServiceCache.mk []).Refresh (staticClient [svcA] [bsA]) []).2.1.cache = [bsA] :=
  ⟨((refresh_success_replaces (staticClient [svcA] [bsA]) []).1 ⟨[svcA, svcA]⟩ [svcA] rfl rfl).1,
   ((refresh_success_replaces (staticClient [svcA] [bsA]) []).1 ⟨[svcA, svcA]⟩ [svcA] rfl rfl).2,
   ((refresh_success_replaces (staticClient [svcA] [bsA]) []).2 ⟨[]⟩ [bsA] rfl rfl).1,
   ((refresh_success_replaces (staticClient [svcA] [bsA]) []).2 ⟨[]⟩ [bsA] rfl rfl).2⟩

/-- C2: for both caches and every prior contents: whenever `Refresh` returns an error
(the mutex was not obtained in time, or the provider listing failed), the cache afterwards
is the cache before the call. -/
theorem refresh_error_keeps (cl : Client) (tr : List Event) :
    (∀ (sc : ServiceCache), (sc.Refresh cl tr).1 ≠ none → (sc.Refresh cl tr).2.1 = sc) ∧
    (∀ (bsc : BusinessServiceCache),
      (bsc.Refresh cl tr).1 ≠ none → (bsc.Refresh cl tr).2.1 = bsc) := by
  refine ⟨?_, ?_⟩
  · intro sc h
    unfold ServiceCache.Refresh at h ⊢
    by_cases hl : cl.lockWithinTimeout tr "ServiceCache" = true
    · cases hs : cl.ListServicesPaginated (tr ++ [Event.lockWait "ServiceCache"]) ⟨0, 0⟩
        <;> simp_all
    · simp_all
  · intro bsc h
    unfold BusinessServiceCache.Refresh at h ⊢
    by_cases hl : cl.lockWithinTimeout tr "BusinessServiceCache" = true
    · cases hs : cl.ListBusinessServicesPaginated
          (tr ++ [Event.lockWait "BusinessServiceCache"]) <;> simp_all
    · simp_all

/-- Witness of C2: both caches keep their contents when no mutex is obtained in time. -/
theorem refresh_error_keeps_witness :
    ((ServiceCache.mk [svcA]).Refresh (failingClient (.text "boom")) []).2.1 = ⟨[svcA]⟩ ∧
    ((BusinessServiceCache.mk [bsA]).Refresh (failingClient (.text "boom")) []).2.1 = ⟨[bsA]⟩ :=
  ⟨(refresh_error_keeps (failingClient (.text "boom")) []).1 ⟨[svcA]⟩ (by simp [ServiceCache.Refresh, failingClient]),
   (refresh_error_keeps (failingClient (.text "boom")) []).2 ⟨[bsA]⟩
     (by simp [BusinessServiceCache.Refresh, failingClient])⟩

/-! ### The registry -/

/-- After `RegisterCache`, the name is bound to the registered cache. -/
theorem lookup_registerCache (pd : Pagerduty) (name : String) (c : CacheRefresher)
    (interval : Int) : (pd.RegisterCache name c interval).caches.lookup name = some c := by
  simp [Pagerduty.RegisterCache, mapSet, List.lookup]

/-- C3: for every registry state, `GetServiceCache` fails with `CacheNotRegistered` when no
service cache is registered under "ServiceCache" (in particular when nothing ever was), fails
with `CacheEmpty` when the registered cache has a sequence of length zero, and otherwise
returns the registered cache with no error; a cache registered by `RegisterCache` is the
registered one; likewise for `GetBusinessServiceCache` and "BusinessServiceCache". -/
theorem get_cache_cases (pd : Pagerduty) :
    ((∀ sc, pd.caches.lookup "ServiceCache" ≠ some (.service sc)) →
      pd.GetServiceCache = .error (.cacheNotRegistered "ServiceCache")) ∧
    (∀ sc, pd.caches.lookup "ServiceCache" = some (.service sc) → sc.cache.length = 0 →
      pd.GetServiceCache = .error (.cacheEmpty "ServiceCache")) ∧
    (∀ sc, pd.caches.lookup "ServiceCache" = some (.service sc) → sc.cache.length ≠ 0 →
      pd.GetServiceCache = .ok sc) ∧
    (∀ sc interval, (pd.RegisterCache "ServiceCache" (.service sc) interval).GetServiceCache
      = if sc.cache.length = 0 then .error (.cacheEmpty "ServiceCache") else .ok sc) ∧
    ((∀ bsc, pd.caches.lookup "BusinessServiceCache" ≠ some (.businessService bsc)) →
      pd.GetBusinessServiceCache = .error (.cacheNotRegistered "BusinessServiceCache")) ∧
    (∀ bsc, pd.caches.lookup "BusinessServiceCache" = some (.businessService bsc) →
      bsc.cache.length = 0 →
      pd.GetBusinessServiceCache = .error (.cacheEmpty "BusinessServiceCache")) ∧
    (∀ bsc, pd.caches.lookup "BusinessServiceCache" = some (.businessService bsc) →
      bsc.cache.length ≠ 0 → pd.GetBusinessServiceCache = .ok bsc) ∧
    (∀ bsc interval,
      (pd.RegisterCache "BusinessServiceCache" (.businessService bsc) interval).GetBusinessServiceCache
      = if bsc.cache.length = 0 then .error (.cacheEmpty "BusinessServiceCache") else .ok bsc) := by
  refine ⟨?_, ?_, ?_, ?_, ?_, ?_, ?_, ?_⟩
  · intro h
    unfold Pagerduty.GetServiceCache
    cases hl : pd.caches.lookup "ServiceCache" with
    | none => rfl
    | some c =>
      cases c with
      | service sc => exact absurd hl (h sc)
      | businessService bsc => rfl
  · intro sc hl h0
    simp [Pagerduty.GetServiceCache, hl, h0]
  · intro sc hl h0
    simp only [Pagerduty.GetServiceCache, hl, h0, if_false]
  · intro sc interval
    simp only [Pagerduty.GetServiceCache, lookup_registerCache]
  · intro h
    unfold Pagerduty.GetBusinessServiceCache
    cases hl : pd.caches.lookup "BusinessServiceCache" with
    | none => rfl
    | some c =>
      cases c with
      | service sc => rfl
      | businessService bsc => exact absurd hl (h bsc)
  · intro bsc hl h0
    simp [Pagerduty.GetBusinessServiceCache, hl, h0]
  · intro bsc hl h0
    simp only [Pagerduty.GetBusinessServiceCache, hl, h0, if_false]
  · intro bsc interval
    simp only [Pagerduty.GetBusinessServiceCache, lookup_registerCache]

/-- Witness of C3: nothing registered, registered and empty, registered and loaded. -/
theorem get_cache_cases_witness :
    emptyRegistry.GetServiceCache = .error (.cacheNotRegistered "ServiceCache") ∧
    freshRegistry.GetServiceCache = .error (.cacheEmpty "ServiceCache") ∧
    loadedRegistry.GetServiceCache = .ok ⟨[svcA]⟩ ∧
    emptyRegistry.GetBusinessServiceCache
      = .error (.cacheNotRegistered "BusinessServiceCache") ∧
    freshRegistry.GetBusinessServiceCache = .error (.cacheEmpty "BusinessServiceCache") ∧
    loadedRegistry.GetBusinessServiceCache = .ok ⟨[bsA]⟩ :=
  ⟨(get_cache_cases emptyRegistry).1 (fun _ h => by simp [emptyRegistry] at h),
   (get_cache_cases freshRegistry).2.1 ⟨[]⟩ (by decide) rfl,
   (get_cache_cases loadedRegistry).2.2.1 ⟨[svcA]⟩ (by decide) (by decide),
   (get_cache_cases emptyRegistry).2.2.2.2.1 (fun _ h => by simp [emptyRegistry] at h),
   (get_cache_cases freshRegistry).2.2.2.2.2.1 ⟨[]⟩ (by decide) rfl,
   (get_cache_cases loadedRegistry).2.2.2.2.2.2.1 ⟨[bsA]⟩ (by decide) (by decide)⟩

/-! ### Initial refresh -/

/-- One error is collected for each failed refresh. -/
theorem collectErrors_length (rs : List (String × Option PdError)) :
    (collectErrors rs).length = (rs.filter (fun r => r.2.isSome)).length := by
  induction rs with
  | nil => rfl
  | cons r rs ih =>
    obtain ⟨name, e⟩ := r
    cases e with
    | none => simp [collectErrors, List.filterMap_cons] at ih ⊢; exact ih
    | some err => simpa [collectErrors, List.filterMap_cons] using ih

/-- The error of a failed refresh is collected, wrapped with the name of its cache. -/
theorem mem_collectErrors (rs : List (String × Option PdError)) (name : String)
    (err : PdError) (h : (name, some err) ∈ rs) :
    PdError.wrapped ("failed to refresh " ++ name ++ " cache") err ∈ collectErrors rs := by
  simp only [collectErrors, List.mem_filterMap]
  exact ⟨(name, some err), h, rfl⟩

/-- Some error is collected exactly when some refresh failed. -/
theorem collectErrors_pos_iff (rs : List (String × Option PdError)) :
    0 < (collectErrors rs).length ↔ ∃ r ∈ rs, r.2 ≠ none := by
  rw [collectErrors_length, List.length_pos_iff_exists_mem]
  constructor
  · rintro ⟨r, hr⟩
    rw [List.mem_filter] at hr
    refine ⟨r, hr.1, ?_⟩
    intro h0
    rw [h0] at hr
    simp at hr
  · rintro ⟨r, hr, hne⟩
    refine ⟨r, List.mem_filter.mpr ⟨hr, ?_⟩⟩
    cases h2 : r.2 with
    | none => exact absurd h2 hne
    | some e => rfl

/-- Every registered cache is refreshed once, in the order of the registry. -/
theorem firstRefreshes_names (cl : Client) (cs : List (String × CacheRefresher))
    (tr : List Event) : (firstRefreshes cl cs tr).1.map Prod.fst = cs.map Prod.fst := by
  induction cs generalizing tr with
  | nil => rfl
  | cons c cs ih =>
    obtain ⟨name, cache⟩ := c
    simp [firstRefreshes, ih]

/-- The registry of `NewPagerduty` holds the two caches, both empty. -/
theorem newRegistry_caches (authToken : String) (refreshInterval : Int) :
    (newRegistry authToken refreshInterval).caches = businessFirst := by
  have hne : ("ServiceCache" != "BusinessServiceCache") = true := by decide
  simp only [newRegistry, Pagerduty.RegisterCache, mapSet, List.filter_nil,
    List.filter_cons, hne, if_true, businessFirst]

/-- The `Refresh` of a service cache succeeds exactly when the mutex is obtained in time and
the provider listing requested after it succeeds. -/
theorem service_refresh_ok_iff (cl : Client) (sc : ServiceCache) (h : List Event) :
    ((CacheRefresher.service sc).Refresh cl h).1 = none ↔
      (cl.lockWithinTimeout h "ServiceCache" = true ∧
        ∃ l, cl.ListServicesPaginated (h ++ [Event.lockWait "ServiceCache"]) ⟨0, 0⟩ = .ok l) := by
  simp only [CacheRefresher.Refresh, ServiceCache.Refresh]
  by_cases hl : cl.lockWithinTimeout h "ServiceCache" = true
  · cases hs : cl.ListServicesPaginated (h ++ [Event.lockWait "ServiceCache"]) ⟨0, 0⟩ <;>
      simp [hl]
  · simp [hl]

/-- The `Refresh` of a business service cache succeeds exactly when the mutex is obtained in
time and the provider listing requested after it succeeds. -/
theorem business_refresh_ok_iff (cl : Client) (bsc : BusinessServiceCache) (h : List Event) :
    ((CacheRefresher.businessService bsc).Refresh cl h).1 = none ↔
      (cl.lockWithinTimeout h "BusinessServiceCache" = true ∧
        ∃ l, cl.ListBusinessServicesPaginated (h ++ [Event.lockWait "BusinessServiceCache"])
          = .ok l) := by
  simp only [CacheRefresher.Refresh, BusinessServiceCache.Refresh]
  by_cases hl : cl.lockWithinTimeout h "BusinessServiceCache" = true
  · cases hs : cl.ListBusinessServicesPaginated
        (h ++ [Event.lockWait "BusinessServiceCache"]) <;> simp [hl]
  · simp [hl]

/-- A `Refresh` only adds to the history. -/
theorem refresh_extends (cl : Client) (c : CacheRefresher) (tr : List Event) :
    ∃ evs, (c.Refresh cl tr).2.2 = tr ++ evs := by
  cases c with
  | service sc =>
    simp only [CacheRefresher.Refresh, ServiceCache.Refresh]
    by_cases hl : cl.lockWithinTimeout tr "ServiceCache" = true
    · cases hs : cl.ListServicesPaginated (tr ++ [Event.lockWait "ServiceCache"]) ⟨0, 0⟩ <;>
        exact ⟨[Event.lockWait "ServiceCache", Event.ListServicesPaginated ⟨0, 0⟩], by
          simp [hl]⟩
    · exact ⟨[Event.lockWait "ServiceCache"], by simp [hl]⟩
  | businessService bsc =>
    simp only [CacheRefresher.Refresh, BusinessServiceCache.Refresh]
    by_cases hl : cl.lockWithinTimeout tr "BusinessServiceCache" = true
    · cases hs : cl.ListBusinessServicesPaginated
          (tr ++ [Event.lockWait "BusinessServiceCache"]) <;>
        exact ⟨[Event.lockWait "BusinessServiceCache", Event.ListBusinessServicesPaginated],
          by simp [hl]⟩
    · exact ⟨[Event.lockWait "BusinessServiceCache"], by simp [hl]⟩

/-- Every outcome of the first refreshes is the `err` of the `Refresh` of a cache of that
name among those given, at the history reached when its goroutine ran. -/
theorem firstRefreshes_outcome (cl : Client) (order : List (String × CacheRefresher)) :
    ∀ (tr : List Event) (name : String) (o : Option PdError),
      (name, o) ∈ (firstRefreshes cl order tr).1 →
      ∃ c evs, (name, c) ∈ order ∧ o = (c.Refresh cl (tr ++ evs)).1 := by
  induction order with
  | nil =>
    intro tr name o h
    simp [firstRefreshes] at h
  | cons e rest ih =>
    obtain ⟨n0, c0⟩ := e
    intro tr name o h
    simp only [firstRefreshes, List.mem_cons] at h
    rcases h with h | h
    · injection h with h1 h2
      exact ⟨c0, [], by simp [h1], by simpa using h2⟩
    · obtain ⟨evs0, hev⟩ := refresh_extends cl c0 tr
      obtain ⟨c, evs, hmem, ho⟩ := ih _ name o h
      refine ⟨c, evs0 ++ evs, List.mem_cons_of_mem _ hmem, ?_⟩
      rw [ho, hev, List.append_assoc]

/-! ### The text of the aggregate error -/

/-- The function `strings.Contains` holds of the texts whose characters are a contiguous part
of those of the first. -/
theorem stringsContains_of_infix (s substr : String) (h : substr.toList <:+: s.toList) :
    stringsContains s substr = true := by
  obtain ⟨t, hp, hs⟩ := List.infix_iff_prefix_suffix.mp h
  simp only [stringsContains, List.any_eq_true]
  exact ⟨t, (List.mem_tails t s.toList).mpr hs, List.isPrefixOf_iff_prefix.mpr hp⟩

/-- The characters of a concatenation. -/
theorem toList_append (a b : String) : (a ++ b).toList = a.toList ++ b.toList :=
  String.data_append a b

/-- Joining strings keeps what was joined so far and every string joined to it. -/
theorem intercalate_go_infix (sep : String) (l : List String) :
    ∀ acc : String,
      acc.toList <:+: (String.intercalate.go acc sep l).toList ∧
      ∀ x ∈ l, x.toList <:+: (String.intercalate.go acc sep l).toList := by
  induction l with
  | nil =>
    intro acc
    exact ⟨by simp [String.intercalate.go], fun x hx => by simp at hx⟩
  | cons a as ih =>
    intro acc
    have h := ih (acc ++ sep ++ a)
    have hacc : acc.toList <:+: (acc ++ sep ++ a).toList := by
      rw [toList_append, toList_append, List.append_assoc]
      exact List.infix_append' [] acc.toList _
    have ha : a.toList <:+: (acc ++ sep ++ a).toList := by
      rw [toList_append]
      exact (List.suffix_append _ _).isInfix
    refine ⟨?_, ?_⟩
    · simp only [String.intercalate.go]
      exact hacc.trans h.1
    · intro x hx
      simp only [String.intercalate.go]
      rcases List.mem_cons.mp hx with rfl | hx
      · exact ha.trans h.1
      · exact h.2 x hx

/-- The text of a slice of errors under `%v` contains the text of each of them. -/
theorem formatErrors_contains (errors : List PdError) (e : PdError) (he : e ∈ errors) :
    e.Error.toList <:+: (formatErrors errors).toList := by
  have hin : e.Error.toList <:+: (" ".intercalate (errors.map PdError.Error)).toList := by
    cases errors with
    | nil => simp at he
    | cons a as =>
      simp only [List.map_cons, String.intercalate]
      have h := intercalate_go_infix " " (as.map PdError.Error) a.Error
      rcases List.mem_cons.mp he with rfl | hmem
      · exact h.1
      · exact h.2 e.Error (List.mem_map_of_mem _ hmem)
  unfold formatErrors
  rw [toList_append, toList_append]
  exact hin.trans (List.infix_append _ _ _)

/-- A wrapped error carries the text of its cause: what the text of the cause contains, the
text of the wrapped error contains. -/
theorem wrapped_contains (context : String) (cause : PdError) (x : String)
    (h : x.toList <:+: cause.Error.toList) :
    x.toList <:+: (PdError.wrapped context cause).Error.toList := by
  simp only [PdError.Error]
  rw [toList_append]
  exact h.trans (List.suffix_append _ _).isInfix

/-- What `initialCacheRefresh` returns, by the errors collected. -/
theorem initialCacheRefresh_result (cl : Client) (pd : Pagerduty)
    (order : List (String × CacheRefresher)) (tr : List Event) :
    (pd.initialCacheRefresh cl order tr).1 =
      if (collectErrors (firstRefreshes cl order tr).1).length > 0 then
        some (.text ("initial cache refresh failed: "
          ++ formatErrors (collectErrors (firstRefreshes cl order tr).1)))
      else none := by
  unfold Pagerduty.initialCacheRefresh
  by_cases hpos : (collectErrors (firstRefreshes cl order tr).1).length > 0
  · simp only [hpos, if_true]
  · simp only [hpos, if_false]

/-- The text of the error of `initialCacheRefresh` contains the text of every collected
error. -/
theorem initialCacheRefresh_text (cl : Client) (pd : Pagerduty)
    (order : List (String × CacheRefresher)) (tr : List Event) (agg : PdError)
    (hagg : (pd.initialCacheRefresh cl order tr).1 = some agg) (e : PdError)
    (he : e ∈ collectErrors (firstRefreshes cl order tr).1) :
    e.Error.toList <:+: agg.Error.toList := by
  rw [initialCacheRefresh_result] at hagg
  by_cases hpos : (collectErrors (firstRefreshes cl order tr).1).length > 0
  · simp only [hpos, if_true, Option.some.injEq] at hagg
    rw [← hagg]
    simp only [PdError.Error]
    rw [toList_append]
    exact (formatErrors_contains _ e he).trans (List.suffix_append _ _).isInfix
  · simp only [hpos, if_false] at hagg
    exact absurd hagg (by simp)

/-- C4: for every set of registered caches, every order in which their goroutines complete
and every outcome of each cache's first `Refresh`.  Each registered cache is refreshed once,
and its outcome is the `err` of its own `Refresh`, which is nil exactly when the mutex is
obtained in time and the provider listing succeeds.  `initialCacheRefresh` returns an error
if and only if at least one of these refreshes failed, whatever the others did.  One error
is collected per failed cache, the cache's error under its name, and the text of the
returned error contains the text of every collected error.  `NewPagerduty` (given a token)
returns an error and no `Pagerduty` exactly when one of the first refreshes of its two
caches failed, and the text of that error contains the text of every collected error. -/
theorem initial_refresh_all_or_nothing (cl : Client) (pd : Pagerduty)
    (order : List (String × CacheRefresher)) (tr : List Event)
    (hperm : order.Perm pd.caches) :
    ((firstRefreshes cl order tr).1.map Prod.fst).Perm (pd.caches.map Prod.fst) ∧
    (∀ name o, (name, o) ∈ (firstRefreshes cl order tr).1 →
      ∃ c evs, (name, c) ∈ pd.caches ∧ o = (c.Refresh cl (tr ++ evs)).1) ∧
    (∀ sc h, ((CacheRefresher.service sc).Refresh cl h).1 = none ↔
      (cl.lockWithinTimeout h "ServiceCache" = true ∧
        ∃ l, cl.ListServicesPaginated (h ++ [Event.lockWait "ServiceCache"]) ⟨0, 0⟩
          = .ok l)) ∧
    (∀ bsc h, ((CacheRefresher.businessService bsc).Refresh cl h).1 = none ↔
      (cl.lockWithinTimeout h "BusinessServiceCache" = true ∧
        ∃ l, cl.ListBusinessServicesPaginated (h ++ [Event.lockWait "BusinessServiceCache"])
          = .ok l)) ∧
    ((pd.initialCacheRefresh cl order tr).1 ≠ none ↔
      ∃ r ∈ (firstRefreshes cl order tr).1, r.2 ≠ none) ∧
    (collectErrors (firstRefreshes cl order tr).1).length
      = ((firstRefreshes cl order tr).1.filter (fun r => r.2.isSome)).length ∧
    (∀ name err, (name, some err) ∈ (firstRefreshes cl order tr).1 →
      PdError.wrapped ("failed to refresh " ++ name ++ " cache") err
        ∈ collectErrors (firstRefreshes cl order tr).1) ∧
    (∀ agg, (pd.initialCacheRefresh cl order tr).1 = some agg →
      ∀ e ∈ collectErrors (firstRefreshes cl order tr).1,
        stringsContains agg.Error e.Error = true) ∧
    (∀ authToken refreshInterval, authToken ≠ "" →
      pd = newRegistry authToken refreshInterval →
      ((∃ e, (NewPagerduty cl authToken refreshInterval order tr).1 = .error e) ↔
        ∃ r ∈ (firstRefreshes cl order tr).1, r.2 ≠ none) ∧
      ∀ e, (NewPagerduty cl authToken refreshInterval order tr).1 = .error e →
        ∀ x ∈ collectErrors (firstRefreshes cl order tr).1,
          stringsContains e.Error x.Error = true) := by
  have key : ((pd.initialCacheRefresh cl order tr).1 ≠ none ↔
      ∃ r ∈ (firstRefreshes cl order tr).1, r.2 ≠ none) := by
    rw [← collectErrors_pos_iff, initialCacheRefresh_result]
    by_cases hpos : (collectErrors (firstRefreshes cl order tr).1).length > 0
    · simp [hpos]
    · simp only [hpos, if_false]
      simp
  refine ⟨?_, ?_, service_refresh_ok_iff cl, business_refresh_ok_iff cl, key,
    collectErrors_length _, fun name err h => mem_collectErrors _ name err h, ?_, ?_⟩
  · rw [firstRefreshes_names]
    exact hperm.map Prod.fst
  · intro name o h
    obtain ⟨c, evs, hmem, ho⟩ := firstRefreshes_outcome cl order tr name o h
    exact ⟨c, evs, hperm.mem_iff.mp hmem, ho⟩
  · intro agg hagg e he
    exact stringsContains_of_infix _ _ (initialCacheRefresh_text cl pd order tr agg hagg e he)
  · intro authToken refreshInterval hne hpd
    subst hpd
    cases hr : (Pagerduty.initialCacheRefresh cl (newRegistry authToken refreshInterval)
        order tr).1 with
    | none =>
      have hnew : (NewPagerduty cl authToken refreshInterval order tr).1
          = .ok (Pagerduty.initialCacheRefresh cl (newRegistry authToken refreshInterval)
              order tr).2.1 := by
        simp only [NewPagerduty, if_neg hne, hr]
      rw [hr] at key
      refine ⟨?_, ?_⟩
      · rw [← key, hnew]
        simp
      · intro e he
        rw [hnew] at he
        exact absurd he (by simp)
    | some agg =>
      have hnew : (NewPagerduty cl authToken refreshInterval order tr).1
          = .error (.wrapped "failed to perform initial cache refresh" agg) := by
        simp only [NewPagerduty, if_neg hne, hr]
      rw [hr] at key
      refine ⟨?_, ?_⟩
      · rw [← key, hnew]
        simp
      · intro e he x hx
        rw [hnew] at he
        injection he with he
        rw [← he]
        exact stringsContains_of_infix _ _ (wrapped_contains _ agg x.Error
          (initialCacheRefresh_text cl _ order tr agg hr x hx))

set_option maxRecDepth 20000

/-- Witness of C4: the two caches of `NewPagerduty`.  With the service listing down and the
business services refresh succeeding, the initial refresh fails with the one collected error
and `NewPagerduty` returns an error whose text contains it.  With no mutex obtained in time
both refreshes fail, and the returned text lists both errors, in the order in which the
goroutines completed. -/
theorem initial_refresh_all_or_nothing_witness :
    serviceFirst.Perm (newRegistry "token" 60).caches ∧
    PdError.wrapped "failed to refresh ServiceCache cache"
        (.wrapped "failed to refresh PagerDuty service cache" (.text "timeout"))
      ∈ collectErrors
          (firstRefreshes (servicesDownClient (.text "timeout") [bsA]) serviceFirst []).1 ∧
    (∃ e, (NewPagerduty (servicesDownClient (.text "timeout") [bsA]) "token" 60
      serviceFirst []).1 = .error e) ∧
    (∀ e, (NewPagerduty (servicesDownClient (.text "timeout") [bsA]) "token" 60
        serviceFirst []).1 = .error e →
      ∀ x ∈ collectErrors
          (firstRefreshes (servicesDownClient (.text "timeout") [bsA]) serviceFirst []).1,
        stringsContains e.Error x.Error = true) ∧
    (NewPagerduty (servicesDownClient (.text "timeout") [bsA]) "token" 60 serviceFirst []).1
      = .error (.wrapped "failed to perform initial cache refresh" (.text
          "initial cache refresh failed: [failed to refresh ServiceCache cache: failed to refresh PagerDuty service cache: timeout]")) ∧
    ((newRegistry "token" 60).initialCacheRefresh (failingClient (.text "boom"))
        serviceFirst []).1
      = some (.text "initial cache refresh failed: [failed to refresh ServiceCache cache: failed to acquire mutex for service cache refresh failed to refresh BusinessServiceCache cache: failed to acquire mutex for business service cache refresh]") ∧
    ((newRegistry "token" 60).initialCacheRefresh (failingClient (.text "boom"))
        businessFirst []).1
      = some (.text "initial cache refresh failed: [failed to refresh BusinessServiceCache cache: failed to acquire mutex for business service cache refresh failed to refresh ServiceCache cache: failed to acquire mutex for service cache refresh]") ∧
    ((newRegistry "token" 60).initialCacheRefresh (staticClient [svcA] [bsA])
        serviceFirst []).1 = none :=
  ⟨by decide,
   (initial_refresh_all_or_nothing (servicesDownClient (.text "timeout") [bsA])
      (newRegistry "token" 60) serviceFirst [] (by decide)).2.2.2.2.2.2.1 "ServiceCache"
      (.wrapped "failed to refresh PagerDuty service cache" (.text "timeout")) (by decide),
   ((initial_refresh_all_or_nothing (servicesDownClient (.text "timeout") [bsA])
      (newRegistry "token" 60) serviceFirst [] (by decide)).2.2.2.2.2.2.2.2 "token" 60
      (by decide) rfl).1.mpr
      ⟨("ServiceCache",
        some (.wrapped "failed to refresh PagerDuty service cache" (.text "timeout"))),
        by decide, by decide⟩,
   ((initial_refresh_all_or_nothing (servicesDownClient (.text "timeout") [bsA])
      (newRegistry "token" 60) serviceFirst [] (by decide)).2.2.2.2.2.2.2.2 "token" 60
      (by decide) rfl).2,
   rfl, by decide, by decide, by decide⟩

/-! ### The direct lookup -/

/-- The requests up to page `j` are those before it followed by the request of page `j`. -/
theorem pageRequests_succ (j : Nat) :
    pageRequests (j + 1) = pageRequests j ++ [Event.ListServicesPaginated ⟨100, 100 * j⟩] := by
  simp [pageRequests, List.range_succ]

/-- The loop walks over full pages: after `m` pages of at least 100 services, starting at
page `j`, it stands at page `j + m` with these pages gathered. -/
theorem fetchAllServices_skip (cl : Client) (pg : Nat → List PdService) (tr : List Event)
    (m : Nat) : ∀ (j fuel : Nat) (acc : List PdService),
      100 * (j + m) < 2 ^ 64 →
      (∀ k, j ≤ k → k < j + m →
        cl.ListServicesPaginated (tr ++ pageRequests k) ⟨100, 100 * k⟩ = .ok (pg k) ∧
          100 ≤ (pg k).length) →
      fetchAllServices cl (fuel + m) (100 * j) acc (tr ++ pageRequests j)
        = fetchAllServices cl fuel (100 * (j + m)) (acc ++ (List.range' j m).flatMap pg)
            (tr ++ pageRequests (j + m)) := by
  induction m with
  | zero =>
    intro j fuel acc _ _
    simp
  | succ m ih =>
    intro j fuel acc hb hp
    obtain ⟨hj, hlen⟩ := hp j (Nat.le_refl j) (by omega)
    have hfuel : fuel + (m + 1) = (fuel + m) + 1 := by omega
    have hoff : (100 * j + 100) % 2 ^ 64 = 100 * (j + 1) := by
      rw [Nat.mod_eq_of_lt (by omega)]
      omega
    have hnot : ¬ (pg j).length < 100 := by omega
    rw [hfuel, fetchAllServices]
    simp only [hj, hnot, if_false, hoff]
    have hstep := ih (j + 1) fuel (acc ++ pg j) (by omega)
      (fun k h1 h2 => hp k (by omega) (by omega))
    rw [pageRequests_succ, ← List.append_assoc] at hstep
    rw [hstep, List.range'_succ, List.flatMap_cons, List.append_assoc]
    have e1 : j + 1 + m = j + (m + 1) := by omega
    rw [e1]

/-- The direct lookup when pages `0 .. n - 1` are full and page `n` is short: it makes
exactly the requests of pages `0 .. n` and searches the concatenation of these pages. -/
theorem direct_short_page (cl : Client) (name : String) (tr : List Event)
    (pg : Nat → List PdService) (n fuel : Nat) (hfuel : n < fuel) (hbound : 100 * n < 2 ^ 64)
    (hfull : ∀ k, k < n →
      cl.ListServicesPaginated (tr ++ pageRequests k) ⟨100, 100 * k⟩ = .ok (pg k) ∧
        100 ≤ (pg k).length)
    (hlast : cl.ListServicesPaginated (tr ++ pageRequests n) ⟨100, 100 * n⟩ = .ok (pg n))
    (hshort : (pg n).length < 100) :
    GetPagerDutyServiceByNameDirect cl fuel name tr =
      some ((match ((List.range (n + 1)).flatMap pg).find? (fun svc => svc.Name = name) with
        | some svc => (svc, true, none)
        | none => (PdService.zero, false, none)), tr ++ pageRequests (n + 1)) := by
  obtain ⟨f, rfl⟩ : ∃ f, fuel = (f + 1) + n := ⟨fuel - n - 1, by omega⟩
  have hskip := fetchAllServices_skip cl pg tr n 0 (f + 1) [] (by omega)
    (fun k _ h2 => hfull k (by omega))
  simp only [Nat.mul_zero, Nat.zero_add, List.nil_append, pageRequests, List.range_zero,
    List.map_nil, List.append_nil] at hskip
  have hlast2 : cl.ListServicesPaginated
      (tr ++ List.map (fun k => Event.ListServicesPaginated ⟨100, 100 * k⟩) (List.range n))
      ⟨100, 100 * n⟩ = .ok (pg n) := hlast
  have hpages : (List.range (n + 1)).flatMap pg = (List.range' 0 n).flatMap pg ++ pg n := by
    rw [List.range_succ, List.flatMap_append, List.range_eq_range']
    simp
  unfold GetPagerDutyServiceByNameDirect
  rw [hskip, fetchAllServices]
  simp only [hlast2, hshort, if_true, hpages]
  rw [pageRequests_succ]
  simp only [pageRequests, List.append_assoc]
  split <;> rename_i heq <;> simp [heq]

/-- The direct lookup when pages `0 .. n - 1` are full and the request of page `n` fails:
it returns that error with found=false. -/
theorem direct_failed_page (cl : Client) (name : String) (tr : List Event)
    (pg : Nat → List PdService) (n fuel : Nat) (hfuel : n < fuel) (hbound : 100 * n < 2 ^ 64)
    (hfull : ∀ k, k < n →
      cl.ListServicesPaginated (tr ++ pageRequests k) ⟨100, 100 * k⟩ = .ok (pg k) ∧
        100 ≤ (pg k).length)
    (err : PdError)
    (hlast : cl.ListServicesPaginated (tr ++ pageRequests n) ⟨100, 100 * n⟩ = .error err) :
    GetPagerDutyServiceByNameDirect cl fuel name tr =
      some ((PdService.zero, false, some err), tr ++ pageRequests (n + 1)) := by
  obtain ⟨f, rfl⟩ : ∃ f, fuel = (f + 1) + n := ⟨fuel - n - 1, by omega⟩
  have hskip := fetchAllServices_skip cl pg tr n 0 (f + 1) [] (by omega)
    (fun k _ h2 => hfull k (by omega))
  simp only [Nat.mul_zero, Nat.zero_add, List.nil_append, pageRequests, List.range_zero,
    List.map_nil, List.append_nil] at hskip
  have hlast2 : cl.ListServicesPaginated
      (tr ++ List.map (fun k => Event.ListServicesPaginated ⟨100, 100 * k⟩) (List.range n))
      ⟨100, 100 * n⟩ = .error err := hlast
  unfold GetPagerDutyServiceByNameDirect
  rw [hskip, fetchAllServices]
  simp only [hlast2]
  rw [pageRequests_succ]
  simp only [pageRequests, List.append_assoc]

/-- C10 (amended): for every name and every provider whose answers to the requests at
offsets 0, 100, ..., 100 (n - 1) are pages of 100 services (or more) and whose request at
offset 100 n, with 100 n below 2 ^ 64 (the range of the `uint` offset), is the first answered
with fewer than 100 or with an error: given fuel for n + 1 rounds, `GetPagerDutyServiceByNameDirect` makes
exactly the requests (limit 100) at offsets 0, 100, ..., 100 n in this order and stops; after
a short page it returns the first service of that name in the concatenation of the fetched
pages with found=true, or the zero service with found=false and no error when there is none;
after a failed request it returns that error with found=false. -/
theorem direct_lookup_walks_pages (cl : Client) (name : String) (tr : List Event)
    (pg : Nat → List PdService) (n fuel : Nat) (hfuel : n < fuel) (hbound : 100 * n < 2 ^ 64)
    (hfull : ∀ k, k < n →
      cl.ListServicesPaginated (tr ++ pageRequests k) ⟨100, 100 * k⟩ = .ok (pg k) ∧
        100 ≤ (pg k).length) :
    (cl.ListServicesPaginated (tr ++ pageRequests n) ⟨100, 100 * n⟩ = .ok (pg n) →
      (pg n).length < 100 →
      GetPagerDutyServiceByNameDirect cl fuel name tr =
        some ((match ((List.range (n + 1)).flatMap pg).find? (fun svc => svc.Name = name) with
          | some svc => (svc, true, none)
          | none => (PdService.zero, false, none)), tr ++ pageRequests (n + 1))) ∧
    (∀ err, cl.ListServicesPaginated (tr ++ pageRequests n) ⟨100, 100 * n⟩ = .error err →
      GetPagerDutyServiceByNameDirect cl fuel name tr =
        some ((PdService.zero, false, some err), tr ++ pageRequests (n + 1))) :=
  ⟨fun hlast hshort => direct_short_page cl name tr pg n fuel hfuel hbound hfull hlast hshort,
   fun err hlast => direct_failed_page cl name tr pg n fuel hfuel hbound hfull err hlast⟩

/-- Witness of C10 (amended): 101 services served in pages of 100, the wanted one last; and a provider
whose second page request fails. -/
theorem direct_lookup_walks_pages_witness :
    GetPagerDutyServiceByNameDirect (pagedClient (List.replicate 100 svcA ++ [svcB])) 2
        "svc-2" []
      = some ((svcB, true, none),
          [Event.ListServicesPaginated ⟨100, 0⟩, Event.ListServicesPaginated ⟨100, 100⟩]) ∧
    GetPagerDutyServiceByNameDirect
        (secondPageDownClient (List.replicate 100 svcA) (.text "rate limited")) 2 "svc-1" []
      = some ((PdService.zero, false, some (.text "rate limited")),
          [Event.ListServicesPaginated ⟨100, 0⟩, Event.ListServicesPaginated ⟨100, 100⟩]) := by
  constructor
  · have h := (direct_lookup_walks_pages (pagedClient (List.replicate 100 svcA ++ [svcB]))
      "svc-2" [] (fun k => ((List.replicate 100 svcA ++ [svcB]).drop (100 * k)).take 100)
      1 2 (by decide) (by decide)
      (fun k hk => by
        obtain rfl : k = 0 := by omega
        exact ⟨rfl, by simp⟩)).1 rfl (by simp)
    rw [h]
    simp [pageRequests, List.range_succ, List.flatMap_cons, List.find?_append,
      List.find?_replicate, svcA, svcB]
  · have h := (direct_lookup_walks_pages
      (secondPageDownClient (List.replicate 100 svcA) (.text "rate limited"))
      "svc-1" [] (fun _ => List.replicate 100 svcA)
      1 2 (by decide) (by decide)
      (fun k hk => by
        obtain rfl : k = 0 := by omega
        exact ⟨rfl, by simp⟩)).2 (.text "rate limited") rfl
    rw [h]
    simp [pageRequests, List.range_succ]

/-- A search finds nothing in a list without a record of the wanted name. -/
theorem find_service_none (l : List PdService) (name : String)
    (h : ∀ svc ∈ l, svc.Name ≠ name) : l.find? (fun s => s.Name = name) = none := by
  rw [List.find?_eq_none]
  intro x hx
  simpa using h x hx

/-- A search finds nothing in a list without a business service of the wanted name. -/
theorem find_business_none (l : List PdBusinessService) (name : String)
    (h : ∀ bs ∈ l, bs.Name ≠ name) : l.find? (fun b => b.Name = name) = none := by
  rw [List.find?_eq_none]
  intro x hx
  simpa using h x hx

/-- Past the range of the `uint` offset: when pages `0 .. m` are full and `100 (m + 1)` is
`2 ^ 64 + 84`, the request after them is made at offset 84. -/
theorem direct_offset_wrap (cl : Client) (name : String) (pg : Nat → List PdService)
    (m : Nat) (hm : 100 * m + 100 = 2 ^ 64 + 84)
    (hfull : ∀ k, k ≤ m →
      cl.ListServicesPaginated (pageRequests k) ⟨100, 100 * k⟩ = .ok (pg k) ∧
        100 ≤ (pg k).length)
    (hlast : cl.ListServicesPaginated (pageRequests (m + 1)) ⟨100, 84⟩ = .ok [])
    (hname : ∀ k svc, svc ∈ pg k → svc.Name ≠ name) :
    GetPagerDutyServiceByNameDirect cl (m + 2) name [] =
      some ((PdService.zero, false, none),
        pageRequests (m + 1) ++ [Event.ListServicesPaginated ⟨100, 84⟩]) := by
  have hskip := fetchAllServices_skip cl pg [] m 0 2 [] (by omega)
    (fun k _ h2 => by
      have := hfull k (by omega)
      simpa using this)
  simp only [Nat.mul_zero, Nat.zero_add, List.nil_append] at hskip
  have h0 : pageRequests 0 = [] := rfl
  rw [h0] at hskip
  have hoff : (100 * m + 100) % 2 ^ 64 = 84 := by omega
  have hm1 := hfull m (Nat.le_refl m)
  have hnot : ¬ (pg m).length < 100 := by omega
  have hfuel : 2 + m = m + 2 := by omega
  have hnone : ((List.range' 0 m).flatMap pg ++ pg m ++ []).find?
      (fun svc : PdService => decide (svc.Name = name)) = none := by
    apply find_service_none
    intro svc hsvc
    simp only [List.append_nil, List.mem_append, List.mem_flatMap] at hsvc
    rcases hsvc with ⟨k, _, hk⟩ | hk
    · exact hname k svc hk
    · exact hname m svc hk
  unfold GetPagerDutyServiceByNameDirect
  rw [← hfuel, hskip, fetchAllServices]
  simp only [hm1.1, hnot, if_false, hoff]
  rw [← pageRequests_succ, fetchAllServices]
  simp only [hlast, List.length_nil, Nat.zero_lt_succ, if_true, hnone]

/-- Counterexample to C10 as stated: the provider answers every request with a page of at
most 100 services and answers the request numbered `wrapPage` with a page of fewer than
100.  The claim has that request made at offset `100 * wrapPage`; the loop makes it at
offset 84, because `100 * wrapPage` is `2 ^ 64 + 84` and the `uint` offset wraps. -/
theorem direct_lookup_offset_wraps :
    (∀ h o, ∃ page, wrapClient.ListServicesPaginated h o = .ok page ∧ page.length ≤ 100) ∧
    wrapClient.ListServicesPaginated (pageRequests wrapPage) ⟨100, 84⟩ = .ok [] ∧
    GetPagerDutyServiceByNameDirect wrapClient (wrapPage + 1) "ghost" []
      = some ((PdService.zero, false, none),
          pageRequests wrapPage ++ [Event.ListServicesPaginated ⟨100, 84⟩]) ∧
    100 * wrapPage = 2 ^ 64 + 84 ∧
    pageRequests wrapPage ++ [Event.ListServicesPaginated ⟨100, 84⟩]
      ≠ pageRequests (wrapPage + 1) := by
  have hw : wrapPage = 184467440737095516 + 1 := by decide
  refine ⟨?_, ?_, ?_, by decide, ?_⟩
  · intro h o
    by_cases hl : h.length = wrapPage
    · exact ⟨[], by simp only [wrapClient, hl, if_true], by simp⟩
    · exact ⟨List.replicate 100 ⟨"P1", "svc-1", "first", ⟨"E1", "escalation_policy_reference"⟩⟩,
        by simp only [wrapClient, hl, if_false], by simp⟩
  · have hlen : (pageRequests wrapPage).length = wrapPage := by
      simp only [pageRequests, List.length_map, List.length_range]
    simp only [wrapClient, hlen, if_true]
  · rw [hw]
    exact direct_offset_wrap wrapClient "ghost"
      (fun _ => List.replicate 100 ⟨"P1", "svc-1", "first", ⟨"E1", "escalation_policy_reference"⟩⟩)
      184467440737095516 (by decide)
      (fun k hk => by
        have hlen : (pageRequests k).length = k := by simp [pageRequests]
        have hne : ¬ (pageRequests k).length = wrapPage := by
          rw [hlen, hw]
          omega
        exact ⟨by simp only [wrapClient, hne, if_false], by simp⟩)
      (by
        have hlen : (pageRequests (184467440737095516 + 1)).length = wrapPage := by
          rw [hw]
          simp only [pageRequests, List.length_map, List.length_range]
        simp only [wrapClient, hlen, if_true])
      (fun k svc hsvc => by
        rw [List.eq_of_mem_replicate hsvc]
        decide)
  · rw [pageRequests_succ]
    intro h
    have h2 := List.append_cancel_left h
    injection h2 with h3
    injection h3 with h4
    injection h4 with _ h5
    rw [hw] at h5
    omega

/-! ### Lookup by name -/

/-- A service cache registered with a record of the wanted name answers the lookup. -/
theorem service_lookup_hit (cl : Client) (fuel : Nat) (pd : Pagerduty) (name : String)
    (tr : List Event) (sc : ServiceCache) (svc : PdService)
    (hreg : pd.caches.lookup "ServiceCache" = some (.service sc))
    (hfind : sc.cache.find? (fun s => s.Name = name) = some svc) :
    GetPagerDutyServiceByName cl fuel pd name true tr = some ((svc, true, none), tr) := by
  have hne : sc.cache.length ≠ 0 := by
    intro h0
    rw [List.length_eq_zero.mp h0] at hfind
    simp at hfind
  simp [GetPagerDutyServiceByName, Pagerduty.GetServiceCache, hreg, hne, hfind]

/-- Without a record of the wanted name in a registered service cache, the lookup is the
direct lookup. -/
theorem service_lookup_miss (cl : Client) (fuel : Nat) (pd : Pagerduty) (name : String)
    (useCache : Bool) (tr : List Event)
    (hmiss : ∀ sc, pd.caches.lookup "ServiceCache" = some (.service sc) →
      sc.cache.find? (fun s => s.Name = name) = none) :
    GetPagerDutyServiceByName cl fuel pd name useCache tr
      = GetPagerDutyServiceByNameDirect cl fuel name tr := by
  unfold GetPagerDutyServiceByName Pagerduty.GetServiceCache
  cases useCache with
  | false => simp
  | true =>
    cases hl : pd.caches.lookup "ServiceCache" with
    | none => simp
    | some c =>
      cases c with
      | businessService bsc => simp
      | service sc =>
        by_cases h0 : sc.cache.length = 0
        · simp [h0]
        · simp [h0, hmiss sc hl]

/-- A business service cache registered with a record of the wanted name answers the
lookup with the ID of the record. -/
theorem business_lookup_hit (cl : Client) (pd : Pagerduty) (name : String)
    (tr : List Event) (bsc : BusinessServiceCache) (bs : PdBusinessService)
    (hreg : pd.caches.lookup "BusinessServiceCache" = some (.businessService bsc))
    (hfind : bsc.cache.find? (fun b => b.Name = name) = some bs) :
    GetBusinessServicebyName cl pd name true tr = ((bs.ID, true, none), tr) := by
  have hne : bsc.cache.length ≠ 0 := by
    intro h0
    rw [List.length_eq_zero.mp h0] at hfind
    simp at hfind
  simp [GetBusinessServicebyName, Pagerduty.GetBusinessServiceCache, hreg, hne, hfind]

/-- Without a record of the wanted name in a registered business service cache, the lookup
is the lookup without the cache. -/
theorem business_lookup_miss (cl : Client) (pd : Pagerduty) (name : String)
    (useCache : Bool) (tr : List Event)
    (hmiss : ∀ bsc, pd.caches.lookup "BusinessServiceCache" = some (.businessService bsc) →
      bsc.cache.find? (fun b => b.Name = name) = none) :
    GetBusinessServicebyName cl pd name useCache tr
      = GetBusinessServicebyName cl pd name false tr := by
  unfold GetBusinessServicebyName Pagerduty.GetBusinessServiceCache
  cases useCache with
  | false => simp
  | true =>
    cases hl : pd.caches.lookup "BusinessServiceCache" with
    | none => simp
    | some c =>
      cases c with
      | service sc => simp
      | businessService bsc =>
        by_cases h0 : bsc.cache.length = 0
        · simp [h0]
        · simp [h0, hmiss bsc hl]

/-- The lookup of a business service without the cache: one listing, searched in order. -/
theorem business_lookup_direct (cl : Client) (pd : Pagerduty) (name : String)
    (tr : List Event) (bservices : List PdBusinessService)
    (hlist : cl.ListBusinessServicesPaginated tr = .ok bservices) :
    GetBusinessServicebyName cl pd name false tr =
      ((match bservices.find? (fun b => b.Name = name) with
        | some s => (s.ID, true, none)
        | none => ("", false, some (.text "businessService not found"))),
        tr ++ [Event.ListBusinessServicesPaginated]) := by
  simp only [GetBusinessServicebyName, hlist, Bool.false_eq_true, if_false]
  cases bservices.find? (fun b => decide (b.Name = name)) <;> rfl

/-- C5: lookup by name with useCache=true, for every name and cache state.  If the kind's
cache is registered and holds a record of that name, the call returns the first such record
(for business services: its ID) with found=true and no error, and the history of provider
calls is unchanged.  If no cache of the kind is registered, or it is empty or holds no record
of that name, the result is that of the direct fetch for the name (for business services:
of the lookup with useCache=false), so that a record of that name in the provider's pages or
listing is returned with found=true. -/
theorem cached_lookup_or_fallback (cl : Client) (fuel : Nat) (pd : Pagerduty)
    (name : String) (tr : List Event) :
    (∀ sc svc, pd.caches.lookup "ServiceCache" = some (.service sc) →
      sc.cache.find? (fun s => s.Name = name) = some svc →
      GetPagerDutyServiceByName cl fuel pd name true tr = some ((svc, true, none), tr)) ∧
    ((∀ sc, pd.caches.lookup "ServiceCache" = some (.service sc) →
        sc.cache.find? (fun s => s.Name = name) = none) →
      GetPagerDutyServiceByName cl fuel pd name true tr
        = GetPagerDutyServiceByNameDirect cl fuel name tr ∧
      ∀ (pg : Nat → List PdService) (n : Nat) (svc : PdService), n < fuel →
        100 * n < 2 ^ 64 →
        (∀ k, k < n →
          cl.ListServicesPaginated (tr ++ pageRequests k) ⟨100, 100 * k⟩ = .ok (pg k) ∧
            100 ≤ (pg k).length) →
        cl.ListServicesPaginated (tr ++ pageRequests n) ⟨100, 100 * n⟩ = .ok (pg n) →
        (pg n).length < 100 →
        ((List.range (n + 1)).flatMap pg).find? (fun s => s.Name = name) = some svc →
        GetPagerDutyServiceByName cl fuel pd name true tr
          = some ((svc, true, none), tr ++ pageRequests (n + 1))) ∧
    (∀ bsc bs, pd.caches.lookup "BusinessServiceCache" = some (.businessService bsc) →
      bsc.cache.find? (fun b => b.Name = name) = some bs →
      GetBusinessServicebyName cl pd name true tr = ((bs.ID, true, none), tr)) ∧
    ((∀ bsc, pd.caches.lookup "BusinessServiceCache" = some (.businessService bsc) →
        bsc.cache.find? (fun b => b.Name = name) = none) →
      GetBusinessServicebyName cl pd name true tr
        = GetBusinessServicebyName cl pd name false tr ∧
      ∀ (bservices : List PdBusinessService) (s : PdBusinessService),
        cl.ListBusinessServicesPaginated tr = .ok bservices →
        bservices.find? (fun b => b.Name = name) = some s →
        GetBusinessServicebyName cl pd name true tr
          = ((s.ID, true, none), tr ++ [Event.ListBusinessServicesPaginated])) := by
  refine ⟨fun sc svc hreg hfind => service_lookup_hit cl fuel pd name tr sc svc hreg hfind,
    fun hmiss => ⟨service_lookup_miss cl fuel pd name true tr hmiss, ?_⟩,
    fun bsc bs hreg hfind => business_lookup_hit cl pd name tr bsc bs hreg hfind,
    fun hmiss => ⟨business_lookup_miss cl pd name true tr hmiss, ?_⟩⟩
  · intro pg n svc hfuel hbound hfull hlast hshort hfind
    rw [service_lookup_miss cl fuel pd name true tr hmiss,
      direct_short_page cl name tr pg n fuel hfuel hbound hfull hlast hshort, hfind]
  · intro bservices s hlist hfind
    rw [business_lookup_miss cl pd name true tr hmiss,
      business_lookup_direct cl pd name tr bservices hlist, hfind]

/-- Witness of C5: a hit in each loaded cache without any provider call, and the fallback
of each empty cache to the provider, where the record is found. -/
theorem cached_lookup_or_fallback_witness :
    GetPagerDutyServiceByName (staticClient [svcB] [bsA]) 1 loadedRegistry "svc-1" true []
      = some ((svcA, true, none), []) ∧
    GetPagerDutyServiceByName (staticClient [svcB] [bsA]) 1 freshRegistry "svc-2" true []
      = some ((svcB, true, none), [] ++ pageRequests 1) ∧
    GetBusinessServicebyName (staticClient [svcB] [bsA]) loadedRegistry "bs-1" true []
      = (("B1", true, none), []) ∧
    GetBusinessServicebyName (staticClient [svcB] [bsA]) freshRegistry "bs-1" true []
      = (("B1", true, none), [] ++ [Event.ListBusinessServicesPaginated]) :=
  ⟨(cached_lookup_or_fallback (staticClient [svcB] [bsA]) 1 loadedRegistry "svc-1" []).1
      ⟨[svcA]⟩ svcA (by decide) (by decide),
   ((cached_lookup_or_fallback (staticClient [svcB] [bsA]) 1 freshRegistry "svc-2" []).2.1
      (fun sc h => by
        have h2 : sc = ⟨[]⟩ := by
          have h3 : freshRegistry.caches.lookup "ServiceCache" = some (.service ⟨[]⟩) := by
            decide
          rw [h3] at h
          injection h with h4
          injection h4 with h5
          exact h5.symm
        rw [h2]; rfl)).2 (fun _ => [svcB]) 0 svcB (by decide) (by decide)
      (fun k hk => absurd hk (Nat.not_lt_zero k)) rfl (by decide) (by decide),
   (cached_lookup_or_fallback (staticClient [svcB] [bsA]) 1 loadedRegistry "bs-1" []).2.2.1
      ⟨[bsA]⟩ bsA (by decide) (by decide),
   ((cached_lookup_or_fallback (staticClient [svcB] [bsA]) 1 freshRegistry "bs-1" []).2.2.2
      (fun bsc h => by
        have h2 : bsc = ⟨[]⟩ := by
          have h3 : freshRegistry.caches.lookup "BusinessServiceCache"
              = some (.businessService ⟨[]⟩) := by decide
          rw [h3] at h
          injection h with h4
          injection h4 with h5
          exact h5.symm
        rw [h2]; rfl)).2 [bsA] bsA rfl (by decide)⟩

/-- C6 (the code at the failing input): no business service is cached or listed under the
name "ghost" and the provider listing succeeds.  `GetBusinessServicebyName` returns
found=false together with the error "businessService not found", with and without the
cache, against loaded caches and against an empty registry.  On the same miss its siblings
return found=false with no error: `GetPagerDutyServiceByName` and the lookup in the cache
alone, `GetBusinessServiceByName`. -/
theorem business_lookup_no_match_is_error :
    (staticClient [] []).ListBusinessServicesPaginated [] = .ok [] ∧
    emptyRegistry.caches = [] ∧
    (GetBusinessServicebyName (staticClient [] []) emptyRegistry "ghost" true []).1
      = ("", false, some (.text "businessService not found")) ∧
    (GetBusinessServicebyName (staticClient [] []) emptyRegistry "ghost" false []).1
      = ("", false, some (.text "businessService not found")) ∧
    (staticClient [svcA] [bsA]).ListBusinessServicesPaginated [] = .ok [bsA] ∧
    GetBusinessServicebyName (staticClient [svcA] [bsA]) loadedRegistry "ghost" true []
      = (("", false, some (.text "businessService not found")),
          [Event.ListBusinessServicesPaginated]) ∧
    GetBusinessServicebyName (staticClient [svcA] [bsA]) loadedRegistry "ghost" false []
      = (("", false, some (.text "businessService not found")),
          [Event.ListBusinessServicesPaginated]) ∧
    GetPagerDutyServiceByName (staticClient [svcA] [bsA]) 1 loadedRegistry "ghost" true []
      = some ((PdService.zero, false, none), [Event.ListServicesPaginated ⟨100, 0⟩]) ∧
    loadedRegistry.GetBusinessServiceByName "ghost" = ("", false, none) :=
  ⟨rfl, rfl, by decide, by decide, rfl, by decide, by decide, by decide, by decide⟩

/-- The two lookups on a miss, for every name, every useCache value and every cache and
provider state in which the provider listing succeeds and no record in the cache or in the
listing has that name: `GetPagerDutyServiceByName` returns the zero service with found=false
and no error (after the requests of the pages up to the first short one);
`GetBusinessServicebyName` returns found=false and the error "businessService not found"
(after its one listing). -/
theorem lookup_without_match (cl : Client) (pd : Pagerduty) (name : String)
    (useCache : Bool) (tr : List Event) :
    (∀ (pg : Nat → List PdService) (n fuel : Nat), n < fuel → 100 * n < 2 ^ 64 →
      (∀ k, k < n →
        cl.ListServicesPaginated (tr ++ pageRequests k) ⟨100, 100 * k⟩ = .ok (pg k) ∧
          100 ≤ (pg k).length) →
      cl.ListServicesPaginated (tr ++ pageRequests n) ⟨100, 100 * n⟩ = .ok (pg n) →
      (pg n).length < 100 →
      (∀ sc, pd.caches.lookup "ServiceCache" = some (.service sc) →
        ∀ svc ∈ sc.cache, svc.Name ≠ name) →
      (∀ k, k ≤ n → ∀ svc ∈ pg k, svc.Name ≠ name) →
      GetPagerDutyServiceByName cl fuel pd name useCache tr
        = some ((PdService.zero, false, none), tr ++ pageRequests (n + 1))) ∧
    (∀ (bservices : List PdBusinessService),
      cl.ListBusinessServicesPaginated tr = .ok bservices →
      (∀ bsc, pd.caches.lookup "BusinessServiceCache" = some (.businessService bsc) →
        ∀ bs ∈ bsc.cache, bs.Name ≠ name) →
      (∀ s ∈ bservices, s.Name ≠ name) →
      GetBusinessServicebyName cl pd name useCache tr
        = (("", false, some (.text "businessService not found")),
            tr ++ [Event.ListBusinessServicesPaginated])) := by
  constructor
  · intro pg n fuel hfuel hbound hfull hlast hshort hcache hpages
    have hnone : ((List.range (n + 1)).flatMap pg).find? (fun s => s.Name = name) = none := by
      apply find_service_none
      intro svc hsvc
      rw [List.mem_flatMap] at hsvc
      obtain ⟨k, hk, hmem⟩ := hsvc
      rw [List.mem_range] at hk
      exact hpages k (by omega) svc hmem
    rw [service_lookup_miss cl fuel pd name useCache tr
        (fun sc hreg => find_service_none sc.cache name (hcache sc hreg)),
      direct_short_page cl name tr pg n fuel hfuel hbound hfull hlast hshort, hnone]
  · intro bservices hlist hcache hremote
    rw [business_lookup_miss cl pd name useCache tr
        (fun bsc hreg => find_business_none bsc.cache name (hcache bsc hreg)),
      business_lookup_direct cl pd name tr bservices hlist,
      find_business_none bservices name hremote]

/-- The two lookups on a miss at an unknown name, against loaded caches and a provider
listing one record of each kind. -/
theorem lookup_without_match_witness :
    GetPagerDutyServiceByName (staticClient [svcB] [bsA]) 1 loadedRegistry "ghost" true []
      = some ((PdService.zero, false, none), [] ++ pageRequests 1) ∧
    GetBusinessServicebyName (staticClient [svcB] [bsA]) loadedRegistry "ghost" true []
      = (("", false, some (.text "businessService not found")),
          [] ++ [Event.ListBusinessServicesPaginated]) :=
  ⟨(lookup_without_match (staticClient [svcB] [bsA]) loadedRegistry "ghost" true []).1
      (fun _ => [svcB]) 0 1 (by decide) (by decide)
      (fun k hk => absurd hk (Nat.not_lt_zero k)) rfl (by decide)
      (fun sc h svc hsvc => by
        have h3 : loadedRegistry.caches.lookup "ServiceCache" = some (.service ⟨[svcA]⟩) := by
          decide
        rw [h3] at h
        injection h with h4
        injection h4 with h5
        subst h5
        simp at hsvc
        subst hsvc
        decide)
      (fun k _ svc hsvc => by
        simp at hsvc
        subst hsvc
        decide),
   (lookup_without_match (staticClient [svcB] [bsA]) loadedRegistry "ghost" true []).2
      [bsA] rfl
      (fun bsc h bs hbs => by
        have h3 : loadedRegistry.caches.lookup "BusinessServiceCache"
            = some (.businessService ⟨[bsA]⟩) := by decide
        rw [h3] at h
        injection h with h4
        injection h4 with h5
        subst h5
        simp at hbs
        subst hbs
        decide)
      (fun s hs => by
        simp at hs
        subst hs
        decide)⟩

/-! ### Update -/

/-- C7 (the code at the failing input): no service named "ghost" is cached or listed; the
lookup reports found=false without an error, `UpdatePagerDutyService` drops the flag, sends
the provider an update of the service with the empty ID and returns what the provider
answers: success when the provider accepts, the provider's error when it refuses.
`UpdateBusinessService` on the same state stops at "businessService not found" without an
update call. -/
theorem update_unknown_service_calls_provider :
    GetPagerDutyServiceByName (staticClient [] []) 1 freshRegistry "ghost" true []
      = some ((PdService.zero, false, none), [Event.ListServicesPaginated ⟨100, 0⟩]) ∧
    UpdatePagerDutyService (staticClient [] []) 1 freshRegistry ghostService []
      = some (none, freshRegistry,
          [Event.ListServicesPaginated ⟨100, 0⟩,
           Event.UpdateService ⟨"", "ghost", "gone", ⟨"E1", "escalation_policy_reference"⟩⟩]) ∧
    UpdatePagerDutyService (rejectingClient [] [] (.text "invalid id")) 1 freshRegistry
        ghostService []
      = some (some (.wrapped "failed to update service" (.text "invalid id")), freshRegistry,
          [Event.ListServicesPaginated ⟨100, 0⟩,
           Event.UpdateService ⟨"", "ghost", "gone", ⟨"E1", "escalation_policy_reference"⟩⟩]) ∧
    UpdateBusinessService (staticClient [] []) freshRegistry ghostBusinessService []
      = (some (.text "businessService not found"), [Event.ListBusinessServicesPaginated]) :=
  ⟨by decide, by decide, by decide, by decide⟩

/-- A listing request is no update call. -/
theorem updateCalls_append_list (tr : List Event) (o : ListServiceOptions) :
    updateCalls (tr ++ [Event.ListServicesPaginated o]) = updateCalls tr := by
  simp [updateCalls, List.filter_append, Event.isUpdate]

/-- The page loop makes no update call. -/
theorem fetchAllServices_updateCalls (cl : Client) (fuel : Nat) :
    ∀ (offset : Nat) (acc : List PdService) (tr : List Event)
      (r : Except PdError (List PdService)) (tr1 : List Event),
      fetchAllServices cl fuel offset acc tr = some (r, tr1) →
      updateCalls tr1 = updateCalls tr := by
  induction fuel with
  | zero =>
    intro offset acc tr r tr1 h
    simp [fetchAllServices] at h
  | succ fuel ih =>
    intro offset acc tr r tr1 h
    rw [fetchAllServices] at h
    cases hl : cl.ListServicesPaginated tr ⟨100, offset⟩ with
    | error err =>
      simp only [hl, Option.some.injEq, Prod.mk.injEq] at h
      rw [← h.2, updateCalls_append_list]
    | ok services =>
      simp only [hl] at h
      by_cases hs : services.length < 100
      · simp only [hs, if_true, Option.some.injEq, Prod.mk.injEq] at h
        rw [← h.2, updateCalls_append_list]
      · simp only [hs, if_false] at h
        rw [ih _ _ _ _ _ h, updateCalls_append_list]

/-- The lookup of a service by name makes no update call. -/
theorem service_lookup_updateCalls (cl : Client) (fuel : Nat) (pd : Pagerduty)
    (name : String) (useCache : Bool) (tr : List Event)
    (r : PdService × Bool × Option PdError) (tr1 : List Event)
    (h : GetPagerDutyServiceByName cl fuel pd name useCache tr = some (r, tr1)) :
    updateCalls tr1 = updateCalls tr := by
  have hdirect : ∀ r tr1, GetPagerDutyServiceByNameDirect cl fuel name tr = some (r, tr1) →
      updateCalls tr1 = updateCalls tr := by
    intro r tr1 hd
    unfold GetPagerDutyServiceByNameDirect at hd
    cases hf : fetchAllServices cl fuel 0 [] tr with
    | none => simp [hf] at hd
    | some res =>
      obtain ⟨out, tr2⟩ := res
      have h2 := fetchAllServices_updateCalls cl fuel 0 [] tr out tr2 hf
      cases out with
      | error err =>
        simp only [hf, Option.some.injEq, Prod.mk.injEq] at hd
        rw [← hd.2, h2]
      | ok allServices =>
        simp only [hf] at hd
        cases hfind : allServices.find? (fun svc => decide (svc.Name = name)) with
        | none =>
          simp only [hfind, Option.some.injEq, Prod.mk.injEq] at hd
          rw [← hd.2, h2]
        | some svc =>
          simp only [hfind, Option.some.injEq, Prod.mk.injEq] at hd
          rw [← hd.2, h2]
  unfold GetPagerDutyServiceByName at h
  cases useCache with
  | false => exact hdirect r tr1 (by simpa using h)
  | true =>
    simp only [if_true] at h
    cases hc : pd.GetServiceCache with
    | error e =>
      simp only [hc] at h
      exact hdirect r tr1 h
    | ok sc =>
      simp only [hc] at h
      cases hfind : sc.cache.find? (fun svc => decide (svc.Name = name)) with
      | none =>
        simp only [hfind] at h
        exact hdirect r tr1 h
      | some svc =>
        simp only [hfind, Option.some.injEq, Prod.mk.injEq] at h
        rw [← h.2]

/-- The lookup of a business service by name makes no update call. -/
theorem business_lookup_updateCalls (cl : Client) (pd : Pagerduty) (name : String)
    (useCache : Bool) (tr : List Event) :
    updateCalls (GetBusinessServicebyName cl pd name useCache tr).2 = updateCalls tr := by
  have hl : updateCalls (tr ++ [Event.ListBusinessServicesPaginated]) = updateCalls tr := by
    simp [updateCalls, List.filter_append, Event.isUpdate]
  have hdirect : updateCalls (GetBusinessServicebyName cl pd name false tr).2
      = updateCalls tr := by
    cases hlist : cl.ListBusinessServicesPaginated tr with
    | error err =>
      simp only [GetBusinessServicebyName, hlist, Bool.false_eq_true, if_false]
      exact hl
    | ok bservices =>
      rw [business_lookup_direct cl pd name tr bservices hlist]
      exact hl
  cases useCache with
  | false => exact hdirect
  | true =>
    by_cases hmiss : ∀ bsc,
        pd.caches.lookup "BusinessServiceCache" = some (.businessService bsc) →
        bsc.cache.find? (fun b => b.Name = name) = none
    · rw [business_lookup_miss cl pd name true tr hmiss]
      exact hdirect
    · push_neg at hmiss
      obtain ⟨bsc, hreg, hfind⟩ := hmiss
      obtain ⟨bs, hbs⟩ := Option.ne_none_iff_exists'.mp hfind
      rw [business_lookup_hit cl pd name tr bsc bs hreg hbs]

/-- C8 (the code at the failing input): the desired business service equals the cached
remote record in every field; `UpdateBusinessService` issues a provider update call and,
called twice in succession, issues two.  `UpdatePagerDutyService`, given a desired service
equal to the cached record, issues none, also when called twice. -/
theorem business_update_unchanged_calls_provider :
    GetBusinessServicebyName (staticClient [] [bsA]) loadedRegistry "bs-1" true []
      = (("B1", true, none), []) ∧
    { desiredBsA.ToPagerDutyBusinessService with ID := "B1" } = bsA ∧
    UpdateBusinessService (staticClient [] [bsA]) loadedRegistry desiredBsA []
      = (none, [Event.UpdateBusinessService bsA]) ∧
    UpdateBusinessService (staticClient [] [bsA]) loadedRegistry desiredBsA
        (UpdateBusinessService (staticClient [] [bsA]) loadedRegistry desiredBsA []).2
      = (none, [Event.UpdateBusinessService bsA, Event.UpdateBusinessService bsA]) ∧
    needsUpdate svcA desiredA = false ∧
    UpdatePagerDutyService (staticClient [svcA] [bsA]) 1 loadedRegistry desiredA []
      = some (none, loadedRegistry, []) ∧
    (UpdatePagerDutyService (staticClient [svcA] [bsA]) 1 loadedRegistry desiredA []).bind
        (fun r => UpdatePagerDutyService (staticClient [svcA] [bsA]) 1 r.2.1 desiredA r.2.2)
      = some (none, loadedRegistry, []) :=
  ⟨by decide, by decide, by decide, by decide, by decide, by decide, by decide⟩

/-- The two updates after a successful lookup.  For every desired service whose name,
description and escalation-policy ID equal those of the existing record found by name,
wherever the lookup found it, `UpdatePagerDutyService` returns success and issues no provider
update call, leaving the registry as it was; when that record is found in the cache the
call changes nothing at all, so a second call in succession is again a no-op.
`UpdateBusinessService` compares nothing: whenever its lookup by name succeeds it issues
exactly one provider update call, carrying the found ID. -/
theorem update_diff_check (cl : Client) (fuel : Nat) (pd : Pagerduty) (tr : List Event) :
    (∀ (service : Service) (existing : PdService) (found : Bool) (tr1 : List Event),
      GetPagerDutyServiceByName cl fuel pd service.Name true tr
        = some ((existing, found, none), tr1) →
      existing.Name = service.Name → existing.Description = service.Description →
      existing.EscalationPolicy.ID = service.EscalationPolicyID →
      UpdatePagerDutyService cl fuel pd service tr = some (none, pd, tr1) ∧
        updateCalls tr1 = updateCalls tr) ∧
    (∀ (service : Service) (sc : ServiceCache) (existing : PdService),
      pd.caches.lookup "ServiceCache" = some (.service sc) →
      sc.cache.find? (fun s => s.Name = service.Name) = some existing →
      existing.Description = service.Description →
      existing.EscalationPolicy.ID = service.EscalationPolicyID →
      UpdatePagerDutyService cl fuel pd service tr = some (none, pd, tr) ∧
        (UpdatePagerDutyService cl fuel pd service tr).bind
          (fun r => UpdatePagerDutyService cl fuel r.2.1 service r.2.2)
          = some (none, pd, tr)) ∧
    (∀ (businessService : BusinessService) (id : String) (found : Bool) (tr1 : List Event),
      GetBusinessServicebyName cl pd businessService.Name true tr = ((id, found, none), tr1) →
      (UpdateBusinessService cl pd businessService tr).2
        = tr1 ++ [Event.UpdateBusinessService
            { businessService.ToPagerDutyBusinessService with ID := id }] ∧
        updateCalls (UpdateBusinessService cl pd businessService tr).2
          = updateCalls tr + 1) := by
  have hA : ∀ (service : Service) (existing : PdService) (found : Bool) (tr1 : List Event),
      GetPagerDutyServiceByName cl fuel pd service.Name true tr
        = some ((existing, found, none), tr1) →
      existing.Name = service.Name → existing.Description = service.Description →
      existing.EscalationPolicy.ID = service.EscalationPolicyID →
      UpdatePagerDutyService cl fuel pd service tr = some (none, pd, tr1) := by
    intro service existing found tr1 hlook h1 h2 h3
    simp [UpdatePagerDutyService, hlook, needsUpdate, h1, h2, h3]
  refine ⟨?_, ?_, ?_⟩
  · intro service existing found tr1 hlook h1 h2 h3
    exact ⟨hA service existing found tr1 hlook h1 h2 h3,
      service_lookup_updateCalls cl fuel pd service.Name true tr _ tr1 hlook⟩
  · intro service sc existing hreg hfind h2 h3
    have h1 : existing.Name = service.Name := by
      simpa using List.find?_some hfind
    have hlook := service_lookup_hit cl fuel pd service.Name tr sc existing hreg hfind
    have hup := hA service existing true tr hlook h1 h2 h3
    refine ⟨hup, ?_⟩
    rw [hup]
    exact hup
  · intro businessService id found tr1 hlook
    have hcalls := business_lookup_updateCalls cl pd businessService.Name true tr
    rw [hlook] at hcalls
    have htr : (UpdateBusinessService cl pd businessService tr).2
        = tr1 ++ [Event.UpdateBusinessService
            { businessService.ToPagerDutyBusinessService with ID := id }] := by
      simp only [UpdateBusinessService, hlook]
      cases cl.UpdateBusinessServiceWithContext tr1
        { businessService.ToPagerDutyBusinessService with ID := id } <;> rfl
    refine ⟨htr, ?_⟩
    rw [htr]
    simp only [updateCalls, List.filter_append] at hcalls ⊢
    simp [Event.isUpdate, hcalls]

/-- The two updates at a desired state equal to the existing record: the service looked up
in the cache and, with empty caches, at the provider; and the business service. -/
theorem update_diff_check_witness :
    UpdatePagerDutyService (staticClient [svcA] [bsA]) 1 loadedRegistry desiredA []
      = some (none, loadedRegistry, []) ∧
    (UpdatePagerDutyService (staticClient [svcA] [bsA]) 1 loadedRegistry desiredA []).bind
        (fun r => UpdatePagerDutyService (staticClient [svcA] [bsA]) 1 r.2.1 desiredA r.2.2)
      = some (none, loadedRegistry, []) ∧
    UpdatePagerDutyService (staticClient [svcA] [bsA]) 1 freshRegistry desiredA []
      = some (none, freshRegistry, [Event.ListServicesPaginated ⟨100, 0⟩]) ∧
    updateCalls (UpdateBusinessService (staticClient [svcA] [bsA]) loadedRegistry desiredBsA []).2
      = updateCalls [] + 1 :=
  ⟨((update_diff_check (staticClient [svcA] [bsA]) 1 loadedRegistry []).2.1 desiredA
      ⟨[svcA]⟩ svcA (by decide) (by decide) (by decide) (by decide)).1,
   ((update_diff_check (staticClient [svcA] [bsA]) 1 loadedRegistry []).2.1 desiredA
      ⟨[svcA]⟩ svcA (by decide) (by decide) (by decide) (by decide)).2,
   ((update_diff_check (staticClient [svcA] [bsA]) 1 freshRegistry []).1 desiredA
      svcA true [Event.ListServicesPaginated ⟨100, 0⟩] (by decide) (by decide) (by decide)
      (by decide)).1,
   ((update_diff_check (staticClient [svcA] [bsA]) 1 loadedRegistry []).2.2 desiredBsA
      "B1" true [] (by decide)).2⟩

/-! ### Delete -/

/-- What `DeletePagerDutyService` returns when the provider's delete call fails: success
exactly when the text of the error contains "404", the wrapped error otherwise; the registry
is left as it was. -/
theorem delete_service_failure (cl : Client) (pd : Pagerduty) (id : String)
    (tr : List Event) (err : PdError) (h : cl.DeleteServiceWithContext tr id = some err) :
    DeletePagerDutyService cl pd id tr =
      (if stringsContains err.Error "404" then none
        else some (.wrapped "failed to delete service" err),
       pd, tr ++ [Event.DeleteService id]) := by
  simp only [DeletePagerDutyService, h]
  split <;> rfl

/-- What `DeleteBusinessService` returns: the answer of the provider's delete call. -/
theorem delete_business_result (cl : Client) (id : String) (tr : List Event) :
    DeleteBusinessService cl id tr =
      (cl.DeleteBusinessServiceWithContext tr id, tr ++ [Event.DeleteBusinessService id]) := by
  unfold DeleteBusinessService
  cases cl.DeleteBusinessServiceWithContext tr id <;> rfl

/-- C9 (the code at the failing input): the provider answers the delete call with a "not
found" failure (its text contains "404"); `DeletePagerDutyService` returns success, and
`DeleteBusinessService` returns that failure as its error. -/
theorem delete_business_not_found_is_error :
    stringsContains notFoundError.Error "404" = true ∧
    (rejectingClient [] [] notFoundError).DeleteServiceWithContext [] "gone"
      = some notFoundError ∧
    (rejectingClient [] [] notFoundError).DeleteBusinessServiceWithContext [] "gone"
      = some notFoundError ∧
    (DeletePagerDutyService (rejectingClient [] [] notFoundError) loadedRegistry "gone" []).1
      = none ∧
    DeleteBusinessService (rejectingClient [] [] notFoundError) "gone" []
      = (some notFoundError, [Event.DeleteBusinessService "gone"]) :=
  ⟨by decide, by decide, by decide, by decide, by decide⟩

/-- The test of `DeletePagerDutyService` for "not found" is `strings.Contains(err.Error(),
"404")`: a failure of another kind whose text contains "404" is also turned into success. -/
theorem delete_service_other_failure_with_404 :
    stringsContains (PdError.text
      "HTTP response failed with status code 500, message: upstream 404 page").Error "404"
      = true ∧
    (DeletePagerDutyService (rejectingClient [svcA] [bsA] (.text
      "HTTP response failed with status code 500, message: upstream 404 page"))
      loadedRegistry "P1" []).1 = none ∧
    (DeletePagerDutyService (rejectingClient [svcA] [bsA] (.text
      "HTTP response failed with status code 500, message: internal error"))
      loadedRegistry "P1" []).1
      = some (.wrapped "failed to delete service" (.text
          "HTTP response failed with status code 500, message: internal error")) :=
  ⟨by decide, by decide, by decide⟩

/-! ### Force refresh -/

/-- C11: whenever the kind's cache is registered and its contents are empty,
`ForceRefreshServiceCache` (`ForceRefreshBusinessServiceCache`) returns the error that wraps
`CacheEmpty`, and neither the registry nor the history changes: `Refresh` is not called, no
mutex is waited for, no provider listing is requested, and the cache is still empty.  Hence
any number of force refreshes in succession leaves the empty cache empty. -/
theorem force_refresh_empty_cache (cl : Client) (pd : Pagerduty) (tr : List Event) :
    (∀ sc, pd.caches.lookup "ServiceCache" = some (.service sc) → sc.cache.length = 0 →
      pd.ForceRefreshServiceCache cl tr
        = (some (.wrapped "failed to get service cache" (.cacheEmpty "ServiceCache")),
            pd, tr) ∧
      ∀ n : Nat,
        (fun s : Pagerduty × List Event => (s.1.ForceRefreshServiceCache cl s.2).2)^[n]
          (pd, tr) = (pd, tr)) ∧
    (∀ bsc, pd.caches.lookup "BusinessServiceCache" = some (.businessService bsc) →
      bsc.cache.length = 0 →
      pd.ForceRefreshBusinessServiceCache cl tr
        = (some (.wrapped "failed to get business service cache"
            (.cacheEmpty "BusinessServiceCache")), pd, tr) ∧
      ∀ n : Nat,
        (fun s : Pagerduty × List Event =>
            (s.1.ForceRefreshBusinessServiceCache cl s.2).2)^[n]
          (pd, tr) = (pd, tr)) := by
  constructor
  · intro sc hreg h0
    have hone : pd.ForceRefreshServiceCache cl tr
        = (some (.wrapped "failed to get service cache" (.cacheEmpty "ServiceCache")),
            pd, tr) := by
      simp [Pagerduty.ForceRefreshServiceCache, Pagerduty.GetServiceCache, hreg, h0]
    refine ⟨hone, ?_⟩
    intro n
    induction n with
    | zero => rfl
    | succ n ih =>
      rw [Function.iterate_succ_apply]
      simp only [hone]
      exact ih
  · intro bsc hreg h0
    have hone : pd.ForceRefreshBusinessServiceCache cl tr
        = (some (.wrapped "failed to get business service cache"
            (.cacheEmpty "BusinessServiceCache")), pd, tr) := by
      simp [Pagerduty.ForceRefreshBusinessServiceCache, Pagerduty.GetBusinessServiceCache,
        hreg, h0]
    refine ⟨hone, ?_⟩
    intro n
    induction n with
    | zero => rfl
    | succ n ih =>
      rw [Function.iterate_succ_apply]
      simp only [hone]
      exact ih

/-- Witness of C11: both caches registered and empty, against a provider that would list
one record of each kind; the force refreshes fail and request nothing. -/
theorem force_refresh_empty_cache_witness :
    freshRegistry.ForceRefreshServiceCache (staticClient [svcA] [bsA]) []
      = (some (.wrapped "failed to get service cache" (.cacheEmpty "ServiceCache")),
          freshRegistry, []) ∧
    freshRegistry.ForceRefreshBusinessServiceCache (staticClient [svcA] [bsA]) []
      = (some (.wrapped "failed to get business service cache"
          (.cacheEmpty "BusinessServiceCache")), freshRegistry, []) :=
  ⟨((force_refresh_empty_cache (staticClient [svcA] [bsA]) freshRegistry []).1 ⟨[]⟩
      (by decide) rfl).1,
   ((force_refresh_empty_cache (staticClient [svcA] [bsA]) freshRegistry []).2 ⟨[]⟩
      (by decide) rfl).1⟩

end Pd
